import Mathlib

/-!
Verification of the Gridlords move-resolution and AI-negotiation subsystem.

The definitions below are a shallow embedding of `src/gridlords.ts`:
JavaScript `Set`s of coordinate strings become duplicate-free `List Coordinate`
values (adding checks membership first, deleting filters the element out),
the sparse specials `Record` becomes an association list, the dense grid
becomes a list of rows, and the two dice rolls — produced by `Math.random`
in the source — are passed in as explicit base-roll parameters.  The
asynchronous Gemini call of `AI.GeminiAI.decideMove` is modelled by a list
of optional response strings, one per attempt, and the uniform random draws
of `GameUtils.getRandomElement` by an explicit index parameter.
-/

/-- Grid side length (`GameConstants.GRID_SIZE`). -/
def GameConstants.GRID_SIZE : Nat := 5

/-- Cells needed to win (`GameConstants.VICTORY_CONDITION_CELLS`). -/
def GameConstants.VICTORY_CONDITION_CELLS : Nat := 13

/-- Flat attack bonus for owning any power source. -/
def GameConstants.POWER_SOURCE_ATTACK_BONUS : Nat := 1

/-- Flat defense bonus for the active magic-well target. -/
def GameConstants.MAGIC_WELL_DEFENSE_BONUS : Nat := 1

/-- Flat defense bonus for a shielded cell. -/
def GameConstants.SHIELD_DEFENSE_MODIFIER : Nat := 1

/-- ASCII code of letter A, used by the coordinate grammar. -/
def GameConstants.ASCII_A_OFFSET : Nat := 65

/-- Maximum number of retries of the AI negotiation loop. -/
def GameConstants.AI_MAX_RETRIES : Nat := 2

/-- Player identity, `GameTypes.PlayerId = 0 | 1`. -/
abbrev PlayerId := Fin 2

/-- The other side: `id === 0 ? 1 : 0`. -/
def opponentId (id : PlayerId) : PlayerId := if id = 0 then 1 else 0

/-- A 0-indexed (row, column) pair, `GameTypes.Coordinate`.  The canonical
string encoding `row,col` used as map key in the source is injective on
integer pairs, so coordinate strings are identified with coordinates here. -/
structure Coordinate where
  row : Int
  col : Int
deriving DecidableEq, Repr

/-- State of one board cell: `' '`, `'X'` (player 0) or `'O'` (player 1). -/
inductive CellState where
  | empty
  | mark (id : PlayerId)
deriving DecidableEq, Repr

/-- A special item, `GameTypes.SpecialType`: `∆`, `✶` or `⛨`. -/
inductive SpecialType where
  | powerSource
  | magicWell
  | shield
deriving DecidableEq, Repr

/-- The three action keywords of `GameTypes.AIActionType`. -/
inductive AIActionType where
  | CONQUER
  | FORTIFY
  | ATTACK
deriving DecidableEq, Repr

/-- An action with an optional magic-well side-channel choice
(`GameTypes.AIMove` and `GameTypes.AIParsedResponse`). -/
structure AIMove where
  action : AIActionType
  coord : Coordinate
  magicWellTargetCoord : Option Coordinate
deriving DecidableEq, Repr

/-- The sparse specials overlay `GameTypes.SpecialCellsMap`, an association
list standing in for the JavaScript `Record` keyed by coordinate string. -/
structure SpecialsMap where
  entries : List (Coordinate × SpecialType)
deriving DecidableEq, Repr

/-- Lookup `specials[coordStr]`. -/
def SpecialsMap.get (m : SpecialsMap) (c : Coordinate) : Option SpecialType :=
  (m.entries.find? (fun e => decide (e.1 = c))).map (fun e => e.2)

/-- Deletion `delete specials[coordStr]`. -/
def SpecialsMap.erase (m : SpecialsMap) (c : Coordinate) : SpecialsMap :=
  ⟨m.entries.filter (fun e => decide (e.1 ≠ c))⟩

/-- Assignment `specials[coordStr] = v`. -/
def SpecialsMap.set (m : SpecialsMap) (c : Coordinate) (v : SpecialType) : SpecialsMap :=
  ⟨(m.entries.filter (fun e => decide (e.1 ≠ c))) ++ [(c, v)]⟩

/-- The board, `Core.Grid`: a size and a row-major list of cells. -/
structure Grid where
  size : Nat
  cells : List (List CellState)
deriving DecidableEq, Repr

/-- Bounds check `Core.Grid.isValidCoordinate`. -/
def Grid.isValidCoordinate (g : Grid) (c : Coordinate) : Bool :=
  decide (0 ≤ c.row) && decide (c.row < (g.size : Int)) &&
  decide (0 ≤ c.col) && decide (c.col < (g.size : Int))

/-- Read a cell, `Core.Grid.getCell`: out-of-bounds reads return `' '`. -/
def Grid.getCell (g : Grid) (c : Coordinate) : CellState :=
  if g.isValidCoordinate c then
    (g.cells.getD c.row.toNat []).getD c.col.toNat CellState.empty
  else
    CellState.empty

/-- Write a cell, `Core.Grid.setCell`: out-of-bounds writes do nothing. -/
def Grid.setCell (g : Grid) (c : Coordinate) (v : CellState) : Grid :=
  if g.isValidCoordinate c then
    { g with cells := g.cells.set c.row.toNat ((g.cells.getD c.row.toNat []).set c.col.toNat v) }
  else
    g

/-- Well-formedness of the list representation: the constructor of
`Core.Grid` always builds a full `size × size` array. -/
def Grid.WF (g : Grid) : Prop :=
  g.cells.length = g.size ∧ ∀ r ∈ g.cells, r.length = g.size

instance (g : Grid) : Decidable g.WF := by
  unfold Grid.WF
  infer_instance

/-- One combatant, `Core.Player`.  The three JavaScript `Set`s of
coordinate strings are duplicate-free lists. -/
structure Player where
  id : PlayerId
  positions : List Coordinate
  ownedPowerSources : List Coordinate
  ownedMagicWells : List Coordinate
deriving DecidableEq, Repr

/-- `Core.Player.addPosition`; `Set.add` inserts only when absent. -/
def Player.addPosition (p : Player) (c : Coordinate) : Player :=
  { p with positions := if c ∈ p.positions then p.positions else p.positions ++ [c] }

/-- `Core.Player.ownsPosition`. -/
def Player.ownsPosition (p : Player) (c : Coordinate) : Bool :=
  decide (c ∈ p.positions)

/-- `Core.Player.getPositionCount`. -/
def Player.getPositionCount (p : Player) : Nat := p.positions.length

/-- `Core.Player.ownsAnyPowerSource`. -/
def Player.ownsAnyPowerSource (p : Player) : Bool :=
  decide (0 < p.ownedPowerSources.length)

/-- `Core.Player.addPowerSource`. -/
def Player.addPowerSource (p : Player) (c : Coordinate) : Player :=
  { p with ownedPowerSources :=
      if c ∈ p.ownedPowerSources then p.ownedPowerSources else p.ownedPowerSources ++ [c] }

/-- `Core.Player.removePowerSource`; `Set.delete` removes the element. -/
def Player.removePowerSource (p : Player) (c : Coordinate) : Player :=
  { p with ownedPowerSources := p.ownedPowerSources.filter (fun x => decide (x ≠ c)) }

/-- `Core.Player.ownsAnyMagicWell`. -/
def Player.ownsAnyMagicWell (p : Player) : Bool :=
  decide (0 < p.ownedMagicWells.length)

/-- `Core.Player.addMagicWell`. -/
def Player.addMagicWell (p : Player) (c : Coordinate) : Player :=
  { p with ownedMagicWells :=
      if c ∈ p.ownedMagicWells then p.ownedMagicWells else p.ownedMagicWells ++ [c] }

/-- `Core.Player.removeMagicWell`. -/
def Player.removeMagicWell (p : Player) (c : Coordinate) : Player :=
  { p with ownedMagicWells := p.ownedMagicWells.filter (fun x => decide (x ≠ c)) }

/-- `Core.Player.removePosition`: deletes the position and cascades the
removal to both special subsets. -/
def Player.removePosition (p : Player) (c : Coordinate) : Player :=
  (({ p with positions := p.positions.filter (fun x => decide (x ≠ c)) }).removePowerSource c).removeMagicWell c

/-- `Rules.GameRules.isAdjacent`: some owned coordinate at Manhattan
distance exactly 1 from the target. -/
def isAdjacent (targetCoord : Coordinate) (player : Player) : Bool :=
  player.positions.any (fun ownedCoord =>
    decide ((ownedCoord.row - targetCoord.row).natAbs + (ownedCoord.col - targetCoord.col).natAbs = 1))

/-- `Rules.GameRules.checkWinner`: first side at or above the threshold. -/
def checkWinner (players : Player × Player) : Option PlayerId :=
  if GameConstants.VICTORY_CONDITION_CELLS ≤ players.1.getPositionCount then some 0
  else if GameConstants.VICTORY_CONDITION_CELLS ≤ players.2.getPositionCount then some 1
  else none

/-- `Rules.GameRules.rollAttackDice`, with the uniform base roll made an
explicit parameter: base plus the power-source bonus when any is owned. -/
def rollAttackDice (attackerPlayer : Player) (baseRoll : Nat) : Nat :=
  baseRoll + (if attackerPlayer.ownsAnyPowerSource then GameConstants.POWER_SOURCE_ATTACK_BONUS else 0)

/-- `Rules.GameRules.rollDefenseDice`, with the uniform base roll made an
explicit parameter: base plus shield bonus plus magic bonus when the active
bonus target equals the defended coordinate. -/
def rollDefenseDice (defendedCoord : Coordinate) (isShielded : Bool)
    (activeMagicWellBonusTarget : Option Coordinate) (baseRoll : Nat) : Nat :=
  baseRoll
    + (if isShielded then GameConstants.SHIELD_DEFENSE_MODIFIER else 0)
    + (if activeMagicWellBonusTarget = some defendedCoord then GameConstants.MAGIC_WELL_DEFENSE_BONUS else 0)

/-- The four orthogonal deltas iterated by `getValidMoves`. -/
def deltas : List (Int × Int) := [(-1, 0), (1, 0), (0, -1), (0, 1)]

/-- The adjacent-cell check of `Rules.GameRules.getValidMoves`: for one
owned coordinate and one delta, the conquer/attack move it contributes. -/
def neighborMove (opponent : Player) (grid : Grid) (specials : SpecialsMap)
    (ownedCoord : Coordinate) (d : Int × Int) : Option AIMove :=
  let targetCoord : Coordinate := ⟨ownedCoord.row + d.1, ownedCoord.col + d.2⟩
  if grid.isValidCoordinate targetCoord then
    if grid.getCell targetCoord = CellState.empty then
      if specials.get targetCoord = none ∨ specials.get targetCoord = some SpecialType.shield then
        some ⟨AIActionType.CONQUER, targetCoord, none⟩
      else
        none
    else if opponent.ownsPosition targetCoord then
      some ⟨AIActionType.ATTACK, targetCoord, none⟩
    else
      none
  else
    none

/-- Deduplication key of `getValidMoves`: action kind and coordinate. -/
def moveKey (m : AIMove) : AIActionType × Coordinate := (m.action, m.coord)

/-- Deduplication by first occurrence of the `(action, coordinate)` key,
mirroring the `Map` pass at the end of `getValidMoves`. -/
def dedupGo : List AIMove → List (AIActionType × Coordinate) → List AIMove
  | [], _ => []
  | m :: rest, seen =>
    if moveKey m ∈ seen then dedupGo rest seen
    else m :: dedupGo rest (moveKey m :: seen)

/-- Deduplicate a move list by `(action, coordinate)` key. -/
def dedupByKey (ms : List AIMove) : List AIMove := dedupGo ms []

/-- The loop body of `getValidMoves` for one owned coordinate: a fortify
move when no shield sits there, then conquer/attack moves to the four
orthogonal neighbors. -/
def movesFromCell (opponent : Player) (grid : Grid) (specials : SpecialsMap)
    (ownedCoord : Coordinate) : List AIMove :=
  (if specials.get ownedCoord ≠ some SpecialType.shield
    then [⟨AIActionType.FORTIFY, ownedCoord, none⟩] else [])
  ++ deltas.filterMap (fun d => neighborMove opponent grid specials ownedCoord d)

/-- `Rules.GameRules.getValidMoves`: per owned coordinate, a fortify move
when no shield sits there, then conquer/attack moves to orthogonal
neighbors; the result is deduplicated by `(action, coordinate)`. -/
def getValidMoves (player opponent : Player) (grid : Grid) (specials : SpecialsMap) : List AIMove :=
  dedupByKey (player.positions.flatMap (movesFromCell opponent grid specials))

/-- `Rules.GameRules.getValidMagicWellTargets`: all owned coordinates. -/
def getValidMagicWellTargets (player : Player) : List Coordinate :=
  player.positions

/-- `GameUtils.getRandomElement`, with the uniform index draw made an
explicit parameter reduced modulo the length. -/
def getRandomElement {α : Type} (arr : List α) (r : Nat) : Option α :=
  if arr.length = 0 then none else arr.get? (r % arr.length)

/-- The mutable fields of `Game.GameController` that the move-resolution
subsystem touches. -/
structure GameState where
  grid : Grid
  player0 : Player
  player1 : Player
  currentPlayerId : PlayerId
  specials : SpecialsMap
  magicWellBonusTarget : Option Coordinate
  magicWellBonusActiveForPlayerId : Option PlayerId
deriving DecidableEq, Repr

/-- Access `this.players[id]`. -/
def GameState.getPlayer (s : GameState) (id : PlayerId) : Player :=
  if id = 0 then s.player0 else s.player1

/-- Replace `this.players[id]`. -/
def GameState.setPlayer (s : GameState) (id : PlayerId) (p : Player) : GameState :=
  if id = 0 then { s with player0 := p } else { s with player1 := p }

/-- Apply a mutation to `this.players[id]`. -/
def GameState.updatePlayer (s : GameState) (id : PlayerId) (f : Player → Player) : GameState :=
  s.setPlayer id (f (s.getPlayer id))

/-- Remove a special from the board overlay, `delete this.specials[k]`. -/
def GameState.eraseSpecialAt (s : GameState) (c : Coordinate) : GameState :=
  { s with specials := s.specials.erase c }

/-- `Game.GameController.claimCell`: write the mark and record ownership. -/
def claimCell (s : GameState) (coord : Coordinate) (playerId : PlayerId) : GameState :=
  ({ s with grid := s.grid.setCell coord (CellState.mark playerId) }).updatePlayer
    playerId (fun p => p.addPosition coord)

/-- `Game.GameController.validateAndExecuteConquer`.  `none` is a rejected
(illegal) action; `some` is the state after a processed action. -/
def validateAndExecuteConquer (s : GameState) (pid : PlayerId) (targetCoord : Coordinate) :
    Option GameState :=
  if s.grid.isValidCoordinate targetCoord = false then none
  else if s.grid.getCell targetCoord ≠ CellState.empty then none
  else if isAdjacent targetCoord (s.getPlayer pid) = false then none
  else
    let s1 :=
      match s.specials.get targetCoord with
      | none => s
      | some SpecialType.shield => s
      | some SpecialType.powerSource =>
          (s.eraseSpecialAt targetCoord).updatePlayer pid (fun p => p.addPowerSource targetCoord)
      | some SpecialType.magicWell =>
          (s.eraseSpecialAt targetCoord).updatePlayer pid (fun p => p.addMagicWell targetCoord)
    some (claimCell s1 targetCoord pid)

/-- `Game.GameController.validateAndExecuteFortify`. -/
def validateAndExecuteFortify (s : GameState) (pid : PlayerId) (targetCoord : Coordinate) :
    Option GameState :=
  if s.grid.isValidCoordinate targetCoord = false then none
  else if (s.getPlayer pid).ownsPosition targetCoord = false then none
  else if s.specials.get targetCoord = some SpecialType.shield then none
  else
    let s1 :=
      match s.specials.get targetCoord with
      | none => s
      | some SpecialType.powerSource =>
          (s.eraseSpecialAt targetCoord).updatePlayer pid (fun p => p.removePowerSource targetCoord)
      | some SpecialType.magicWell =>
          (s.eraseSpecialAt targetCoord).updatePlayer pid (fun p => p.removeMagicWell targetCoord)
      | some SpecialType.shield => s.eraseSpecialAt targetCoord
    some { s1 with specials := s1.specials.set targetCoord SpecialType.shield }

/-- Attack roll used inside `validateAndExecuteAttack`. -/
def attackRollAt (s : GameState) (pid : PlayerId) (attackBase : Nat) : Nat :=
  rollAttackDice (s.getPlayer pid) attackBase

/-- Defense roll used inside `validateAndExecuteAttack`: shield bonus from
the specials overlay, magic bonus only when the bonus slot is active for
the defender and points at exactly the defended coordinate. -/
def defenseRollAt (s : GameState) (pid : PlayerId) (targetCoord : Coordinate) (defenseBase : Nat) : Nat :=
  let isDefenderShielded := s.specials.get targetCoord = some SpecialType.shield
  let isMagicWellBoosted :=
    s.magicWellBonusActiveForPlayerId = some (opponentId pid) ∧
    s.magicWellBonusTarget = some targetCoord
  rollDefenseDice targetCoord isDefenderShielded
    (if isMagicWellBoosted then some targetCoord else none) defenseBase

/-- `Game.GameController.validateAndExecuteAttack`, with the two base dice
rolls as parameters.  `none` is a rejected (illegal) action; a failed
attack is still processed and returns the unchanged state. -/
def validateAndExecuteAttack (s : GameState) (pid : PlayerId) (targetCoord : Coordinate)
    (attackBase defenseBase : Nat) : Option GameState :=
  if s.grid.isValidCoordinate targetCoord = false then none
  else if (s.getPlayer (opponentId pid)).ownsPosition targetCoord = false then none
  else if isAdjacent targetCoord (s.getPlayer pid) = false then none
  else
    let defenderSpecial := s.specials.get targetCoord
    let attackRoll := attackRollAt s pid attackBase
    let defenseRoll := defenseRollAt s pid targetCoord defenseBase
    if defenseRoll < attackRoll then
      let s1 := s.updatePlayer (opponentId pid) (fun p => p.removePosition targetCoord)
      let s2 :=
        match defenderSpecial with
        | none => s1
        | some SpecialType.shield => s1.eraseSpecialAt targetCoord
        | some SpecialType.powerSource =>
            ((s1.updatePlayer (opponentId pid) (fun p => p.removePowerSource targetCoord)).eraseSpecialAt
              targetCoord).updatePlayer pid (fun p => p.addPowerSource targetCoord)
        | some SpecialType.magicWell =>
            ((s1.updatePlayer (opponentId pid) (fun p => p.removeMagicWell targetCoord)).eraseSpecialAt
              targetCoord).updatePlayer pid (fun p => p.addMagicWell targetCoord)
      some (claimCell s2 targetCoord pid)
    else
      some s

/-- `Game.GameController.processPlayerAction`: dispatch one action. -/
def processPlayerAction (s : GameState) (pid : PlayerId) (action : AIActionType)
    (coord : Coordinate) (attackBase defenseBase : Nat) : Option GameState :=
  match action with
  | AIActionType.CONQUER => validateAndExecuteConquer s pid coord
  | AIActionType.FORTIFY => validateAndExecuteFortify s pid coord
  | AIActionType.ATTACK => validateAndExecuteAttack s pid coord attackBase defenseBase

/-- `Game.GameController.executePlayerTurn`, reduced to its state effects:
the bonus slot is cleared unconditionally at the start of the turn, one
action is processed, and when the mover owns a magic well and a target
choice is supplied the bonus slot is set for the opponent's id.  The
returned flag is `moveSuccessful`. -/
def executePlayerTurn (s : GameState) (action : AIActionType) (coord : Coordinate)
    (attackBase defenseBase : Nat) (wellChoice : Option Coordinate) : GameState × Bool :=
  let pid := s.currentPlayerId
  let s0 := { s with magicWellBonusTarget := none, magicWellBonusActiveForPlayerId := none }
  match processPlayerAction s0 pid action coord attackBase defenseBase with
  | none => (s0, false)
  | some s1 =>
      if (s1.getPlayer pid).ownsAnyMagicWell then
        match wellChoice with
        | some chosenTargetCoord =>
            ({ s1 with magicWellBonusTarget := some chosenTargetCoord,
                       magicWellBonusActiveForPlayerId := some (opponentId pid) }, true)
        | none => (s1, true)
      else (s1, true)

/-- `Game.GameController.switchPlayer`. -/
def switchPlayer (s : GameState) : GameState :=
  { s with currentPlayerId := if s.currentPlayerId = 0 then 1 else 0 }

/-- Character class `[A-Z]`. -/
def isUpperAZ (c : Char) : Bool := decide ('A' ≤ c) && decide (c ≤ 'Z')

/-- Character class `[0-9]`. -/
def isDigitCh (c : Char) : Bool := decide ('0' ≤ c) && decide (c ≤ '9')

/-- Character class `[1-9]`. -/
def isNonZeroDigit (c : Char) : Bool := decide ('1' ≤ c) && decide (c ≤ '9')

/-- JavaScript `String.prototype.trim` on a character list. -/
def jsTrim (cs : List Char) : List Char :=
  ((cs.dropWhile Char.isWhitespace).reverse.dropWhile Char.isWhitespace).reverse

/-- JavaScript `String.prototype.toUpperCase` (ASCII range). -/
def jsUpper (cs : List Char) : List Char := cs.map Char.toUpper

/-- JavaScript `split('\n')` on a character list. -/
def splitOnNl : List Char → List (List Char)
  | [] => [[]]
  | c :: rest =>
    match splitOnNl rest with
    | [] => [[]]
    | l :: ls => if c = '\n' then [] :: l :: ls else (c :: l) :: ls

/-- Numeric value of a digit string, `parseInt` on `[1-9][0-9]*`. -/
def digitsVal (cs : List Char) : Nat :=
  cs.foldl (fun n c => n * 10 + (c.toNat - 48)) 0

/-- Match of the regular-expression fragment `\\s?`: consume at most one
whitespace character. -/
def skipOneWs : List Char → List Char
  | w :: ws => if w.isWhitespace then ws else w :: ws
  | [] => []

/-- Match of the tail regular-expression fragment `[A-Z][1-9][0-9]*$`. -/
def coordTokenOk : List Char → Bool
  | a :: d :: ds => isUpperAZ a && isNonZeroDigit d && ds.all isDigitCh
  | _ => false

/-- Match a literal keyword at the head of the line, yielding the rest. -/
def matchLiteral : List Char → List Char → Option (List Char)
  | [], rest => some rest
  | _ :: _, [] => none
  | k :: ks, c :: cs => if c = k then matchLiteral ks cs else none

/-- Match the fragment `\s?([A-Z][1-9][0-9]*)$` after the colon. -/
def afterColonToken (rest : List Char) : Option (List Char) :=
  let rest1 := skipOneWs rest
  if coordTokenOk rest1 then some rest1 else none

/-- Match `^(CONQUER|FORTIFY|ATTACK):\s?([A-Z][1-9][0-9]*)$` on one line. -/
def matchMainAction (line : List Char) : Option (AIActionType × List Char) :=
  match matchLiteral "CONQUER:".toList line with
  | some rest => (afterColonToken rest).map (fun t => (AIActionType.CONQUER, t))
  | none =>
    match matchLiteral "FORTIFY:".toList line with
    | some rest => (afterColonToken rest).map (fun t => (AIActionType.FORTIFY, t))
    | none =>
      match matchLiteral "ATTACK:".toList line with
      | some rest => (afterColonToken rest).map (fun t => (AIActionType.ATTACK, t))
      | none => none

/-- Match `^WELL_TARGET:\s?([A-Z][1-9][0-9]*)$` on one line. -/
def matchWellTarget (line : List Char) : Option (List Char) :=
  match matchLiteral "WELL_TARGET:".toList line with
  | some rest => afterColonToken rest
  | none => none

/-- `GameUtils.parseCoordinateInput`: trim and uppercase, match
`^([A-Z])\s?([1-9][0-9]*)$`, convert to 0-indexed row and column, reject
coordinates outside the `GRID_SIZE` board. -/
def parseCoordinateInput (input : String) : Option Coordinate :=
  match jsUpper (jsTrim input.data) with
  | [] => none
  | rc :: rest =>
    if isUpperAZ rc then
      match skipOneWs rest with
      | [] => none
      | d :: ds =>
        if isNonZeroDigit d && ds.all isDigitCh then
          let row : Int := ((rc.toNat - GameConstants.ASCII_A_OFFSET : Nat) : Int)
          let col : Int := ((digitsVal (d :: ds) : Int)) - 1
          if 0 ≤ row ∧ row < (GameConstants.GRID_SIZE : Int) ∧
             0 ≤ col ∧ col < (GameConstants.GRID_SIZE : Int) then
            some ⟨row, col⟩
          else none
        else none
    else none

/-- `AI.GeminiAI.parseAIResponse`: first line is the main action, an
optional second line is the magic-well target; a malformed well-target
line is ignored rather than fatal. -/
def parseAIResponse (responseText : String) : Option AIMove :=
  match splitOnNl (jsUpper (jsTrim responseText.data)) with
  | [] => none
  | mainActionLine :: restLines =>
    match matchMainAction mainActionLine with
    | none => none
    | some (action, coordTok) =>
      match parseCoordinateInput (String.mk coordTok) with
      | none => none
      | some coord =>
        let magicWellTargetCoord : Option Coordinate :=
          match restLines with
          | [] => none
          | wellTargetLine :: _ =>
            match matchWellTarget wellTargetLine with
            | none => none
            | some tok => parseCoordinateInput (String.mk tok)
        some ⟨action, coord, magicWellTargetCoord⟩

/-- Validation step of `AI.GeminiAI.decideMove`: re-derive legality of the
parsed suggestion through the rules, and silently discard a magic-well
target that is not an owned cell of a well-owning mover. -/
def validateParsed (aiPlayer humanPlayer : Player) (grid : Grid) (specials : SpecialsMap)
    (p : AIMove) : Option AIMove :=
  let ok : Bool :=
    match p.action with
    | AIActionType.CONQUER =>
        decide (grid.getCell p.coord = CellState.empty) && isAdjacent p.coord aiPlayer
    | AIActionType.FORTIFY =>
        aiPlayer.ownsPosition p.coord && decide (specials.get p.coord ≠ some SpecialType.shield)
    | AIActionType.ATTACK =>
        humanPlayer.ownsPosition p.coord && isAdjacent p.coord aiPlayer
  let p1 :=
    match p.magicWellTargetCoord with
    | none => p
    | some w =>
        if aiPlayer.ownsAnyMagicWell = true ∧ aiPlayer.ownsPosition w = true then p
        else { p with magicWellTargetCoord := none }
  if ok then some p1 else none

/-- Retry loop of `AI.GeminiAI.decideMove`: one entry of `responses` per
attempt (`none` models a transport or timeout failure), at most
`AI_MAX_RETRIES + 1` attempts. -/
def runAttempts (aiPlayer humanPlayer : Player) (grid : Grid) (specials : SpecialsMap) :
    List (Option String) → Nat → Option AIMove
  | _, 0 => none
  | rs, n + 1 =>
    let step : Option AIMove :=
      match rs.headD none with
      | none => none
      | some responseText =>
        match parseAIResponse responseText with
        | none => none
        | some p => validateParsed aiPlayer humanPlayer grid specials p
    match step with
    | some p => some p
    | none => runAttempts aiPlayer humanPlayer grid specials rs.tail n

/-- `AI.GeminiAI.decideMove`: retry loop, then random-legal-move fallback,
then the magic-well target fallback; `none` only when the fallback finds
no legal move at all. -/
def decideMove (aiPlayer humanPlayer : Player) (grid : Grid) (specials : SpecialsMap)
    (responses : List (Option String)) (rMove rWell : Nat) : Option AIMove :=
  let parsed := runAttempts aiPlayer humanPlayer grid specials responses
    (GameConstants.AI_MAX_RETRIES + 1)
  let withFallback :=
    match parsed with
    | some p => some p
    | none => getRandomElement (getValidMoves aiPlayer humanPlayer grid specials) rMove
  match withFallback with
  | none => none
  | some m =>
    if aiPlayer.ownsAnyMagicWell = true ∧ m.magicWellTargetCoord = none then
      some { m with magicWellTargetCoord := getRandomElement (getValidMagicWellTargets aiPlayer) rWell }
    else some m

/-- Case split on the two player identities. -/
lemma playerId_cases (id : PlayerId) : id = 0 ∨ id = 1 := by revert id; decide

/-- The opponent is never the acting side. -/
lemma opponentId_ne (id : PlayerId) : opponentId id ≠ id := by revert id; decide

/-- Reading a player after writing one. -/
lemma GameState.getPlayer_setPlayer (s : GameState) (i j : PlayerId) (p : Player) :
    (s.setPlayer i p).getPlayer j = if i = j then p else s.getPlayer j := by
  rcases playerId_cases i with hi | hi <;> rcases playerId_cases j with hj | hj <;>
    subst hi <;> subst hj <;> simp [GameState.setPlayer, GameState.getPlayer]

/-- Reading a player after mutating one. -/
lemma GameState.getPlayer_updatePlayer (s : GameState) (i j : PlayerId) (f : Player → Player) :
    (s.updatePlayer i f).getPlayer j = if i = j then f (s.getPlayer i) else s.getPlayer j := by
  simp [GameState.updatePlayer, GameState.getPlayer_setPlayer]

/-- Erasing a board special leaves the players untouched. -/
lemma GameState.getPlayer_eraseSpecialAt (s : GameState) (c : Coordinate) (j : PlayerId) :
    (s.eraseSpecialAt c).getPlayer j = s.getPlayer j := by
  rcases playerId_cases j with hj | hj <;> subst hj <;>
    simp [GameState.eraseSpecialAt, GameState.getPlayer]

/-- Reading a player after a cell claim. -/
lemma GameState.getPlayer_claimCell (s : GameState) (c : Coordinate) (i j : PlayerId) :
    (claimCell s c i).getPlayer j =
      if i = j then (s.getPlayer i).addPosition c else s.getPlayer j := by
  rcases playerId_cases i with hi | hi <;> rcases playerId_cases j with hj | hj <;>
    subst hi <;> subst hj <;>
    simp [claimCell, GameState.updatePlayer, GameState.setPlayer, GameState.getPlayer]

/-- Lookup after assignment at the same key. -/
lemma SpecialsMap.get_set_self (m : SpecialsMap) (c : Coordinate) (v : SpecialType) :
    (m.set c v).get c = some v := by
  unfold SpecialsMap.set SpecialsMap.get
  induction m.entries with
  | nil => simp
  | cons e l ih =>
    by_cases h : e.1 = c
    · simp [List.filter_cons, h]
    · simp [List.filter_cons, h]

/-- Lookup after erasure at the same key. -/
lemma SpecialsMap.get_erase_self (m : SpecialsMap) (c : Coordinate) :
    (m.erase c).get c = none := by
  unfold SpecialsMap.erase SpecialsMap.get
  simp only [Option.map_eq_none', List.find?_eq_none, List.mem_filter]
  intro e he
  simpa using he.2

/-- Membership characterization of `isAdjacent`. -/
lemma isAdjacent_eq_true_iff (targetCoord : Coordinate) (player : Player) :
    isAdjacent targetCoord player = true ↔
    ∃ ownedCoord ∈ player.positions,
      (ownedCoord.row - targetCoord.row).natAbs + (ownedCoord.col - targetCoord.col).natAbs = 1 := by
  simp [isAdjacent]

/-- C8: `isAdjacent(target, side)` returns true iff some coordinate owned
by the side has Manhattan distance exactly 1 from the target; since a
diagonal neighbor differs by 1 in both components, its Manhattan distance
is 2, so diagonal neighbors never count. -/
theorem isAdjacent_characterization (targetCoord : Coordinate) (player : Player) :
    (isAdjacent targetCoord player = true ↔
      ∃ ownedCoord ∈ player.positions,
        (ownedCoord.row - targetCoord.row).natAbs + (ownedCoord.col - targetCoord.col).natAbs = 1) ∧
    (∀ ownedCoord ∈ player.positions,
        (ownedCoord.row - targetCoord.row).natAbs = 1 ∧ (ownedCoord.col - targetCoord.col).natAbs = 1 →
        (ownedCoord.row - targetCoord.row).natAbs + (ownedCoord.col - targetCoord.col).natAbs ≠ 1) := by
  refine ⟨isAdjacent_eq_true_iff targetCoord player, ?_⟩
  intro ownedCoord _ h
  omega

/-- C9: the attack roll is the base roll plus the fixed power-source bonus
exactly when the attacker owns at least one power source, and two sides
owning any number of power sources at all get the same roll (the bonus is
not cumulative). -/
theorem rollAttackDice_spec (p q : Player) (baseRoll : Nat) :
    (p.ownedPowerSources ≠ [] →
      rollAttackDice p baseRoll = baseRoll + GameConstants.POWER_SOURCE_ATTACK_BONUS) ∧
    (p.ownedPowerSources = [] → rollAttackDice p baseRoll = baseRoll) ∧
    (p.ownedPowerSources ≠ [] → q.ownedPowerSources ≠ [] →
      rollAttackDice p baseRoll = rollAttackDice q baseRoll) := by
  unfold rollAttackDice Player.ownsAnyPowerSource
  refine ⟨?_, ?_, ?_⟩ <;> intros <;> simp_all [List.length_pos]

/-- Attacker with two power sources used in the C9 witness. -/
def c9P : Player := ⟨0, [⟨0, 0⟩, ⟨1, 1⟩], [⟨0, 0⟩, ⟨1, 1⟩], []⟩

/-- Attacker with one power source used in the C9 witness. -/
def c9Q : Player := ⟨1, [⟨4, 4⟩], [⟨4, 4⟩], []⟩

/-- C9 witness: a base roll of 3 becomes 4 with any power source owned,
and owning two power sources gives the same roll as owning one. -/
theorem rollAttackDice_spec_witness :
    rollAttackDice c9P 3 = 3 + GameConstants.POWER_SOURCE_ATTACK_BONUS ∧
    rollAttackDice c9P 3 = rollAttackDice c9Q 3 :=
  ⟨(rollAttackDice_spec c9P c9Q 3).1 (by decide),
   (rollAttackDice_spec c9P c9Q 3).2.2 (by decide) (by decide)⟩

/-- C10: reading any out-of-bounds coordinate yields the empty cell and
writing any out-of-bounds coordinate leaves the grid (hence all ownership
marks) unchanged; both operations are total. -/
theorem grid_oob_total (g : Grid) (c : Coordinate) (v : CellState)
    (h : g.isValidCoordinate c = false) :
    g.getCell c = CellState.empty ∧ g.setCell c v = g := by
  unfold Grid.getCell Grid.setCell
  rw [h]
  simp

/-- Empty 5×5 grid used by the C10 witness. -/
def c10Grid : Grid := ⟨5, List.replicate 5 (List.replicate 5 CellState.empty)⟩

/-- C10 witness: the coordinate (-1, 5) is out of bounds, reads as empty
and its write is a no-op on the 5×5 grid. -/
theorem grid_oob_total_witness :
    c10Grid.isValidCoordinate ⟨-1, 5⟩ = false ∧
    c10Grid.getCell ⟨-1, 5⟩ = CellState.empty ∧
    c10Grid.setCell ⟨-1, 5⟩ (CellState.mark 0) = c10Grid :=
  ⟨by decide, grid_oob_total c10Grid ⟨-1, 5⟩ (CellState.mark 0) (by decide)⟩

/-- Power-source bookkeeping does not touch the owned positions. -/
lemma Player.positions_removePowerSource (p : Player) (c : Coordinate) :
    (p.removePowerSource c).positions = p.positions := rfl

/-- Magic-well bookkeeping does not touch the owned positions. -/
lemma Player.positions_removeMagicWell (p : Player) (c : Coordinate) :
    (p.removeMagicWell c).positions = p.positions := rfl

/-- Power-source capture does not touch the owned positions. -/
lemma Player.positions_addPowerSource (p : Player) (c : Coordinate) :
    (p.addPowerSource c).positions = p.positions := rfl

/-- Magic-well capture does not touch the owned positions. -/
lemma Player.positions_addMagicWell (p : Player) (c : Coordinate) :
    (p.addMagicWell c).positions = p.positions := rfl

/-- A just-added position is owned. -/
lemma Player.ownsPosition_addPosition_self (p : Player) (c : Coordinate) :
    (p.addPosition c).ownsPosition c = true := by
  unfold Player.addPosition Player.ownsPosition
  by_cases h : c ∈ p.positions <;> simp [h]

/-- A just-removed position is no longer owned. -/
lemma Player.ownsPosition_removePosition_self (p : Player) (c : Coordinate) :
    (p.removePosition c).ownsPosition c = false := by
  unfold Player.removePosition Player.removePowerSource Player.removeMagicWell Player.ownsPosition
  simp

/-- The positions of the defender after the capture bookkeeping of a won
attack: only `removePosition` touches them. -/
lemma attack_s2_opponent_positions (s1 : GameState) (pid : PlayerId) (t : Coordinate)
    (sp : Option SpecialType) :
    ((match sp with
      | none => s1
      | some SpecialType.shield => s1.eraseSpecialAt t
      | some SpecialType.powerSource =>
          ((s1.updatePlayer (opponentId pid) (fun p => p.removePowerSource t)).eraseSpecialAt
            t).updatePlayer pid (fun p => p.addPowerSource t)
      | some SpecialType.magicWell =>
          ((s1.updatePlayer (opponentId pid) (fun p => p.removeMagicWell t)).eraseSpecialAt
            t).updatePlayer pid (fun p => p.addMagicWell t)).getPlayer (opponentId pid)).positions
      = (s1.getPlayer (opponentId pid)).positions := by
  rcases sp with _ | sp
  · rfl
  · rcases sp <;>
      simp [GameState.getPlayer_updatePlayer, GameState.getPlayer_eraseSpecialAt,
        opponentId_ne, (opponentId_ne pid).symm, Player.positions_removePowerSource,
        Player.positions_removeMagicWell]

/-- C4: under the attack preconditions, the attacker captures the target
iff the attack roll strictly exceeds the defense roll; on a tie or a
lower attack roll the action is still processed (`some`) and the returned
state is exactly the input state — grid, specials overlay and both sides'
sets unchanged. -/
theorem attack_capture_iff (s : GameState) (pid : PlayerId) (t : Coordinate) (ab db : Nat)
    (h1 : s.grid.isValidCoordinate t = true)
    (h2 : (s.getPlayer (opponentId pid)).ownsPosition t = true)
    (h3 : isAdjacent t (s.getPlayer pid) = true) :
    (defenseRollAt s pid t db < attackRollAt s pid ab →
      ∃ s', validateAndExecuteAttack s pid t ab db = some s' ∧
        (s'.getPlayer pid).ownsPosition t = true ∧
        (s'.getPlayer (opponentId pid)).ownsPosition t = false) ∧
    (attackRollAt s pid ab ≤ defenseRollAt s pid t db →
      validateAndExecuteAttack s pid t ab db = some s) := by
  unfold validateAndExecuteAttack
  rw [h1, h2, h3]
  simp only [Bool.true_eq_false, if_false]
  constructor
  · intro hlt
    rw [if_pos hlt]
    refine ⟨_, rfl, ?_, ?_⟩
    · rw [GameState.getPlayer_claimCell]
      simp [Player.ownsPosition_addPosition_self]
    · rw [GameState.getPlayer_claimCell, if_neg (opponentId_ne pid).symm]
      unfold Player.ownsPosition
      rw [attack_s2_opponent_positions]
      have := Player.ownsPosition_removePosition_self (s.getPlayer (opponentId pid)) t
      unfold Player.ownsPosition at this
      simpa [GameState.getPlayer_updatePlayer] using this
  · intro hle
    rw [if_neg (by omega)]

/-- Concrete state for the C4 witness: X at (0,0) attacks O at (0,1). -/
def c4State : GameState :=
  ⟨⟨5, [[CellState.mark 0, CellState.mark 1, CellState.empty, CellState.empty, CellState.empty],
        [CellState.empty, CellState.empty, CellState.empty, CellState.empty, CellState.empty],
        [CellState.empty, CellState.empty, CellState.empty, CellState.empty, CellState.empty],
        [CellState.empty, CellState.empty, CellState.empty, CellState.empty, CellState.empty],
        [CellState.empty, CellState.empty, CellState.empty, CellState.empty, CellState.empty]]⟩,
   ⟨0, [⟨0, 0⟩], [], []⟩, ⟨1, [⟨0, 1⟩], [], []⟩, 0, ⟨[]⟩, none, none⟩

/-- C4 witness: with rolls 6 against 1 the attacker captures (0,1); with
rolls 1 against 6 the action is processed and the state is unchanged. -/
theorem attack_capture_iff_witness :
    (∃ s', validateAndExecuteAttack c4State 0 ⟨0, 1⟩ 6 1 = some s' ∧
      (s'.getPlayer 0).ownsPosition ⟨0, 1⟩ = true ∧
      (s'.getPlayer (opponentId 0)).ownsPosition ⟨0, 1⟩ = false) ∧
    validateAndExecuteAttack c4State 0 ⟨0, 1⟩ 1 6 = some c4State :=
  ⟨(attack_capture_iff c4State 0 ⟨0, 1⟩ 6 1 (by decide) (by decide) (by decide)).1 (by decide),
   (attack_capture_iff c4State 0 ⟨0, 1⟩ 1 6 (by decide) (by decide) (by decide)).2 (by decide)⟩

/-- A processed conquer leaves the opponent entirely unchanged. -/
lemma conquer_opponent_player (s : GameState) (pid : PlayerId) (c : Coordinate) (s' : GameState)
    (h : validateAndExecuteConquer s pid c = some s') :
    s'.getPlayer (opponentId pid) = s.getPlayer (opponentId pid) := by
  unfold validateAndExecuteConquer at h
  split_ifs at h
  rcases hsp : s.specials.get c with _ | sp
  · rw [hsp] at h
    simp only [Option.some.injEq] at h
    subst h
    rw [GameState.getPlayer_claimCell, if_neg (opponentId_ne pid).symm]
  · rw [hsp] at h
    rcases sp <;>
      simp only [Option.some.injEq] at h <;> subst h <;>
      rw [GameState.getPlayer_claimCell, if_neg (opponentId_ne pid).symm] <;>
      simp [GameState.getPlayer_updatePlayer, GameState.getPlayer_eraseSpecialAt,
        if_neg (opponentId_ne pid).symm]

/-- Overwriting the specials overlay leaves the players untouched. -/
lemma GameState.getPlayer_withSpecials (s : GameState) (m : SpecialsMap) (j : PlayerId) :
    (({ s with specials := m } : GameState)).getPlayer j = s.getPlayer j := by
  rcases playerId_cases j with hj | hj <;> subst hj <;> simp [GameState.getPlayer]

/-- A processed fortify leaves the opponent entirely unchanged. -/
lemma fortify_opponent_player (s : GameState) (pid : PlayerId) (c : Coordinate) (s' : GameState)
    (h : validateAndExecuteFortify s pid c = some s') :
    s'.getPlayer (opponentId pid) = s.getPlayer (opponentId pid) := by
  unfold validateAndExecuteFortify at h
  split_ifs at h
  rcases hsp : s.specials.get c with _ | sp
  · rw [hsp] at h
    simp only [Option.some.injEq] at h
    subst h
    rw [GameState.getPlayer_withSpecials]
  · rw [hsp] at h
    rcases sp <;> simp only [Option.some.injEq] at h <;> subst h <;>
      rw [GameState.getPlayer_withSpecials] <;>
      simp [GameState.getPlayer_updatePlayer, GameState.getPlayer_eraseSpecialAt,
        if_neg ((opponentId_ne pid).symm)]

/-- A processed attack either changes nothing or removes exactly the
target from the defender's positions. -/
lemma attack_opponent_positions (s : GameState) (pid : PlayerId) (c : Coordinate)
    (ab db : Nat) (s' : GameState)
    (h : validateAndExecuteAttack s pid c ab db = some s') :
    s' = s ∨ (s'.getPlayer (opponentId pid)).positions =
      (s.getPlayer (opponentId pid)).positions.filter (fun x => decide (x ≠ c)) := by
  unfold validateAndExecuteAttack at h
  split_ifs at h with hv ho ha
  by_cases hroll : defenseRollAt s pid c db < attackRollAt s pid ab
  · rw [if_pos hroll] at h
    right
    simp only [Option.some.injEq] at h
    subst h
    rw [GameState.getPlayer_claimCell, if_neg (opponentId_ne pid).symm,
      attack_s2_opponent_positions]
    rw [GameState.getPlayer_updatePlayer, if_pos rfl]
    rfl
  · rw [if_neg hroll] at h
    left
    simp only [Option.some.injEq] at h
    exact h.symm

/-- C6 (amended): within one resolved action the opponent's
owned-coordinate count never increases, so if the opponent was below the
victory threshold before the action, the two sides cannot both be at or
above the threshold afterwards — simultaneous victory is impossible. -/
theorem resolved_action_threshold (s : GameState) (pid : PlayerId) (a : AIActionType)
    (c : Coordinate) (ab db : Nat) (s' : GameState)
    (h : processPlayerAction s pid a c ab db = some s') :
    (s'.getPlayer (opponentId pid)).getPositionCount ≤
      (s.getPlayer (opponentId pid)).getPositionCount ∧
    ((s.getPlayer (opponentId pid)).getPositionCount < GameConstants.VICTORY_CONDITION_CELLS →
      ¬ (GameConstants.VICTORY_CONDITION_CELLS ≤ (s'.getPlayer 0).getPositionCount ∧
         GameConstants.VICTORY_CONDITION_CELLS ≤ (s'.getPlayer 1).getPositionCount)) := by
  have hmono : (s'.getPlayer (opponentId pid)).getPositionCount ≤
      (s.getPlayer (opponentId pid)).getPositionCount := by
    rcases a with _ | _ | _
    · rw [show processPlayerAction s pid AIActionType.CONQUER c ab db
          = validateAndExecuteConquer s pid c from rfl] at h
      rw [conquer_opponent_player s pid c s' h]
    · rw [show processPlayerAction s pid AIActionType.FORTIFY c ab db
          = validateAndExecuteFortify s pid c from rfl] at h
      rw [fortify_opponent_player s pid c s' h]
    · rw [show processPlayerAction s pid AIActionType.ATTACK c ab db
          = validateAndExecuteAttack s pid c ab db from rfl] at h
      rcases attack_opponent_positions s pid c ab db s' h with heq | hfil
      · rw [heq]
      · unfold Player.getPositionCount
        rw [hfil]
        exact List.length_filter_le _ _
  refine ⟨hmono, fun hlt hboth => ?_⟩
  rcases playerId_cases (opponentId pid) with ho | ho <;> rw [ho] at hmono hlt <;> omega

/-- Concrete state for C6: X at (0,0); O at (0,1) and (4,4). -/
def c6State : GameState :=
  ⟨⟨5, [[CellState.mark 0, CellState.mark 1, CellState.empty, CellState.empty, CellState.empty],
        [CellState.empty, CellState.empty, CellState.empty, CellState.empty, CellState.empty],
        [CellState.empty, CellState.empty, CellState.empty, CellState.empty, CellState.empty],
        [CellState.empty, CellState.empty, CellState.empty, CellState.empty, CellState.empty],
        [CellState.empty, CellState.empty, CellState.empty, CellState.empty, CellState.mark 1]]⟩,
   ⟨0, [⟨0, 0⟩], [], []⟩, ⟨1, [⟨0, 1⟩, ⟨4, 4⟩], [], []⟩, 0, ⟨[]⟩, none, none⟩

/-- C6 counterexample: one resolved action (a won attack) changes BOTH
sides' owned-coordinate counts — the attacker's from 1 to 2 and the
defender's from 2 to 1 — refuting that only one side's count changes. -/
theorem resolved_action_counts_counterexample :
    (processPlayerAction c6State 0 AIActionType.ATTACK ⟨0, 1⟩ 6 1).map
        (fun s' => ((s'.getPlayer 0).getPositionCount, (s'.getPlayer 1).getPositionCount))
      = some (2, 1) ∧
    (c6State.getPlayer 0).getPositionCount = 1 ∧
    (c6State.getPlayer 1).getPositionCount = 2 := by decide

/-- State after fortifying (0,0) in `c6State`, used by the C6 witness. -/
def c6After : GameState :=
  { c6State with specials := ⟨[(⟨0, 0⟩, SpecialType.shield)]⟩ }

/-- C6 witness: the threshold theorem applied to a concrete resolved
fortify action. -/
theorem resolved_action_threshold_witness :
    (c6After.getPlayer (opponentId 0)).getPositionCount ≤
      (c6State.getPlayer (opponentId 0)).getPositionCount ∧
    ((c6State.getPlayer (opponentId 0)).getPositionCount < GameConstants.VICTORY_CONDITION_CELLS →
      ¬ (GameConstants.VICTORY_CONDITION_CELLS ≤ (c6After.getPlayer 0).getPositionCount ∧
         GameConstants.VICTORY_CONDITION_CELLS ≤ (c6After.getPlayer 1).getPositionCount)) :=
  resolved_action_threshold c6State 0 AIActionType.FORTIFY ⟨0, 0⟩ 1 1 c6After (by decide)

/-- Bounds as natural-number indices. -/
lemma Grid.isValidCoordinate_toNat {g : Grid} {c : Coordinate}
    (h : g.isValidCoordinate c = true) :
    c.row.toNat < g.size ∧ c.col.toNat < g.size := by
  unfold Grid.isValidCoordinate at h
  simp only [Bool.and_eq_true, decide_eq_true_eq] at h
  omega

/-- Writing a cell preserves the grid size. -/
lemma Grid.size_setCell (g : Grid) (c : Coordinate) (v : CellState) :
    (g.setCell c v).size = g.size := by
  unfold Grid.setCell
  split <;> rfl

/-- Writing a cell preserves the bounds check. -/
lemma Grid.isValidCoordinate_setCell (g : Grid) (c c2 : Coordinate) (v : CellState) :
    (g.setCell c v).isValidCoordinate c2 = g.isValidCoordinate c2 := by
  unfold Grid.isValidCoordinate
  rw [Grid.size_setCell]

/-- Reading back a just-written in-bounds cell of a well-formed grid. -/
lemma Grid.getCell_setCell_self (g : Grid) (c : Coordinate) (v : CellState)
    (hwf : g.WF) (hv : g.isValidCoordinate c = true) :
    (g.setCell c v).getCell c = v := by
  obtain ⟨hrow, hcol⟩ := Grid.isValidCoordinate_toNat hv
  have hrowlen : c.row.toNat < g.cells.length := by rw [hwf.1]; exact hrow
  have hcollen : c.col.toNat < (g.cells.getD c.row.toNat []).length := by
    have hmem : g.cells.getD c.row.toNat [] ∈ g.cells := by
      rw [List.getD_eq_getElem?_getD, List.getElem?_eq_getElem hrowlen]
      exact List.getElem_mem hrowlen
    rw [hwf.2 _ hmem]
    exact hcol
  have hv2 : (g.setCell c v).isValidCoordinate c = true := by
    rw [Grid.isValidCoordinate_setCell]
    exact hv
  unfold Grid.getCell
  rw [if_pos hv2]
  unfold Grid.setCell
  rw [if_pos hv]
  rw [List.getD_eq_getElem?_getD] at hcollen
  simp only [List.getD_eq_getElem?_getD, List.getElem?_set_self hrowlen, Option.getD_some]
  rw [List.getElem?_set_self hcollen]
  rfl

/-- Mutating a player leaves the grid untouched. -/
lemma GameState.grid_updatePlayer (s : GameState) (i : PlayerId) (f : Player → Player) :
    (s.updatePlayer i f).grid = s.grid := by
  unfold GameState.updatePlayer GameState.setPlayer
  split <;> rfl

/-- Erasing a board special leaves the grid untouched. -/
lemma GameState.grid_eraseSpecialAt (s : GameState) (c : Coordinate) :
    (s.eraseSpecialAt c).grid = s.grid := rfl

/-- The grid after a cell claim. -/
lemma GameState.grid_claimCell (s : GameState) (c : Coordinate) (i : PlayerId) :
    (claimCell s c i).grid = s.grid.setCell c (CellState.mark i) := by
  unfold claimCell
  rw [GameState.grid_updatePlayer]

/-- C5 (amended): an action accepted by the executor that actually changed
the state is no longer legal as the same action by the same side against
the new state; the exception forced by the code is a processed-but-failed
attack, which leaves the state unchanged and therefore remains legal. -/
theorem action_not_repeatable (s : GameState) (pid : PlayerId) (a : AIActionType)
    (c : Coordinate) (ab db ab2 db2 : Nat) (s' : GameState)
    (hwf : s.grid.WF)
    (h : processPlayerAction s pid a c ab db = some s')
    (hchange : s' ≠ s) :
    processPlayerAction s' pid a c ab2 db2 = none := by
  rcases a with _ | _ | _
  · rw [show processPlayerAction s pid AIActionType.CONQUER c ab db
        = validateAndExecuteConquer s pid c from rfl] at h
    rw [show processPlayerAction s' pid AIActionType.CONQUER c ab2 db2
        = validateAndExecuteConquer s' pid c from rfl]
    unfold validateAndExecuteConquer at h
    split_ifs at h with hv he ha
    have hgrid : s'.grid = s.grid.setCell c (CellState.mark pid) := by
      rcases hsp : s.specials.get c with _ | sp
      · rw [hsp] at h
        simp only [Option.some.injEq] at h
        subst h
        rw [GameState.grid_claimCell]
      · rw [hsp] at h
        rcases sp <;> simp only [Option.some.injEq] at h <;> subst h <;>
          simp [GameState.grid_claimCell, GameState.grid_updatePlayer,
            GameState.grid_eraseSpecialAt]
    have hvtrue : s.grid.isValidCoordinate c = true := by
      simp only [Bool.not_eq_false] at hv
      exact hv
    unfold validateAndExecuteConquer
    by_cases hv2 : s'.grid.isValidCoordinate c = false
    · rw [if_pos hv2]
    · rw [if_neg hv2]
      have hcell : s'.grid.getCell c = CellState.mark pid := by
        rw [hgrid]
        exact Grid.getCell_setCell_self s.grid c (CellState.mark pid) hwf hvtrue
      rw [if_pos (by rw [hcell]; exact fun hcon => CellState.noConfusion hcon)]
  · rw [show processPlayerAction s pid AIActionType.FORTIFY c ab db
        = validateAndExecuteFortify s pid c from rfl] at h
    rw [show processPlayerAction s' pid AIActionType.FORTIFY c ab2 db2
        = validateAndExecuteFortify s' pid c from rfl]
    unfold validateAndExecuteFortify at h
    split_ifs at h with hv ho hs
    have hspec : s'.specials.get c = some SpecialType.shield := by
      rcases hsp : s.specials.get c with _ | sp
      · rw [hsp] at h
        simp only [Option.some.injEq] at h
        subst h
        exact SpecialsMap.get_set_self _ _ _
      · rw [hsp] at h
        rcases sp <;> simp only [Option.some.injEq] at h <;> subst h <;>
          exact SpecialsMap.get_set_self _ _ _
    unfold validateAndExecuteFortify
    by_cases hv2 : s'.grid.isValidCoordinate c = false
    · rw [if_pos hv2]
    · rw [if_neg hv2]
      by_cases ho2 : (s'.getPlayer pid).ownsPosition c = false
      · rw [if_pos ho2]
      · rw [if_neg ho2, if_pos hspec]
  · rw [show processPlayerAction s pid AIActionType.ATTACK c ab db
        = validateAndExecuteAttack s pid c ab db from rfl] at h
    rw [show processPlayerAction s' pid AIActionType.ATTACK c ab2 db2
        = validateAndExecuteAttack s' pid c ab2 db2 from rfl]
    rcases attack_opponent_positions s pid c ab db s' h with heq | hfil
    · exact absurd heq hchange
    · unfold validateAndExecuteAttack
      by_cases hv2 : s'.grid.isValidCoordinate c = false
      · rw [if_pos hv2]
      · rw [if_neg hv2]
        have hown : (s'.getPlayer (opponentId pid)).ownsPosition c = false := by
          unfold Player.ownsPosition
          rw [hfil]
          simp
        rw [if_pos hown]

/-- Concrete state for C5: X at (0,0), O at (0,1), no specials. -/
def c5State : GameState :=
  ⟨⟨5, [[CellState.mark 0, CellState.mark 1, CellState.empty, CellState.empty, CellState.empty],
        [CellState.empty, CellState.empty, CellState.empty, CellState.empty, CellState.empty],
        [CellState.empty, CellState.empty, CellState.empty, CellState.empty, CellState.empty],
        [CellState.empty, CellState.empty, CellState.empty, CellState.empty, CellState.empty],
        [CellState.empty, CellState.empty, CellState.empty, CellState.empty, CellState.empty]]⟩,
   ⟨0, [⟨0, 0⟩], [], []⟩, ⟨1, [⟨0, 1⟩], [], []⟩, 0, ⟨[]⟩, none, none⟩

/-- C5 counterexample: an attack processed (accepted) with rolls 1 against
6 leaves the state unchanged, and exactly the same attack by the same side
is still legal (not rejected) when re-validated against the new state. -/
theorem accepted_action_still_legal_counterexample :
    processPlayerAction c5State 0 AIActionType.ATTACK ⟨0, 1⟩ 1 6 = some c5State ∧
    processPlayerAction c5State 0 AIActionType.ATTACK ⟨0, 1⟩ 2 1 ≠ none := by decide

/-- Concrete state for the C5 witness: X at (0,0), the cell (0,1) empty. -/
def c5Wit : GameState :=
  ⟨⟨5, [[CellState.mark 0, CellState.empty, CellState.empty, CellState.empty, CellState.empty],
        [CellState.empty, CellState.empty, CellState.empty, CellState.empty, CellState.empty],
        [CellState.empty, CellState.empty, CellState.empty, CellState.empty, CellState.empty],
        [CellState.empty, CellState.empty, CellState.empty, CellState.empty, CellState.empty],
        [CellState.empty, CellState.empty, CellState.empty, CellState.empty, CellState.empty]]⟩,
   ⟨0, [⟨0, 0⟩], [], []⟩, ⟨1, [⟨4, 4⟩], [], []⟩, 0, ⟨[]⟩, none, none⟩

/-- State after X conquers (0,1) in `c5Wit`. -/
def c5WitAfter : GameState :=
  ⟨⟨5, [[CellState.mark 0, CellState.mark 0, CellState.empty, CellState.empty, CellState.empty],
        [CellState.empty, CellState.empty, CellState.empty, CellState.empty, CellState.empty],
        [CellState.empty, CellState.empty, CellState.empty, CellState.empty, CellState.empty],
        [CellState.empty, CellState.empty, CellState.empty, CellState.empty, CellState.empty],
        [CellState.empty, CellState.empty, CellState.empty, CellState.empty, CellState.empty]]⟩,
   ⟨0, [⟨0, 0⟩, ⟨0, 1⟩], [], []⟩, ⟨1, [⟨4, 4⟩], [], []⟩, 0, ⟨[]⟩, none, none⟩

/-- C5 witness: the conquer of (0,1) was accepted and changed the state,
and re-validating the same conquer against the new state rejects it. -/
theorem action_not_repeatable_witness :
    processPlayerAction c5WitAfter 0 AIActionType.CONQUER ⟨0, 1⟩ 1 1 = none :=
  action_not_repeatable c5Wit 0 AIActionType.CONQUER ⟨0, 1⟩ 1 1 1 1 c5WitAfter
    (by decide) (by decide) (by decide)

/-- Scenario start for C1: X owns (0,0) and (0,1) and holds a captured
magic well; O owns (1,1), adjacent to (0,1); X is to move. -/
def c1Start : GameState :=
  ⟨⟨5, [[CellState.mark 0, CellState.mark 0, CellState.empty, CellState.empty, CellState.empty],
        [CellState.empty, CellState.mark 1, CellState.empty, CellState.empty, CellState.empty],
        [CellState.empty, CellState.empty, CellState.empty, CellState.empty, CellState.empty],
        [CellState.empty, CellState.empty, CellState.empty, CellState.empty, CellState.empty],
        [CellState.empty, CellState.empty, CellState.empty, CellState.empty, CellState.empty]]⟩,
   ⟨0, [⟨0, 0⟩, ⟨0, 1⟩], [], [⟨0, 0⟩]⟩, ⟨1, [⟨1, 1⟩], [], []⟩, 0, ⟨[]⟩, none, none⟩

/-- X's turn in the C1 scenario: conquer (0,2) and nominate the owned cell
(0,1) for the magic-well defense bonus. -/
def c1AfterA : GameState × Bool :=
  executePlayerTurn c1Start AIActionType.CONQUER ⟨0, 2⟩ 1 1 (some ⟨0, 1⟩)

/-- O's next turn in the C1 scenario: attack exactly the nominated cell
(0,1) with base rolls 5 against 4. -/
def c1AfterB : GameState × Bool :=
  executePlayerTurn (switchPlayer c1AfterA.1) AIActionType.ATTACK ⟨0, 1⟩ 5 4 none

/-- C1: the turn procedure clears the magic-well bonus slot at the start
of every turn, before any attack of that turn is resolved, so the outcome
of a whole turn never depends on the bonus slot it starts with — the bonus
set at the end of a turn is never consumed.  Concretely: X nominates (0,1)
at the end of X's turn, yet O's very next attack against exactly (0,1)
with base rolls 5 against 4 captures the cell, although with the magic
bonus added the defense roll would have been 5 and the tie would have
favored the defender. -/
theorem magic_well_bonus_never_consumed :
    (∀ (s : GameState) (t : Option Coordinate) (i : Option PlayerId)
       (act : AIActionType) (coord : Coordinate) (ab db : Nat) (wc : Option Coordinate),
       executePlayerTurn
           { s with magicWellBonusTarget := t, magicWellBonusActiveForPlayerId := i }
           act coord ab db wc
         = executePlayerTurn s act coord ab db wc) ∧
    (c1AfterA.2 = true ∧
     c1AfterA.1.magicWellBonusTarget = some ⟨0, 1⟩ ∧
     c1AfterA.1.magicWellBonusActiveForPlayerId = some 1 ∧
     c1AfterB.2 = true ∧
     (c1AfterB.1.getPlayer 1).ownsPosition ⟨0, 1⟩ = true ∧
     (c1AfterB.1.getPlayer 0).ownsPosition ⟨0, 1⟩ = false ∧
     rollDefenseDice ⟨0, 1⟩ false (some ⟨0, 1⟩) 4 = rollAttackDice (c1Start.getPlayer 1) 5) :=
  ⟨fun _ _ _ _ _ _ _ _ => rfl, by decide⟩

/-- The per-side invariant of the spec: both special subsets are contained
in the owned-coordinates set. -/
def playerInv (p : Player) : Prop :=
  (∀ x ∈ p.ownedPowerSources, x ∈ p.positions) ∧
  (∀ x ∈ p.ownedMagicWells, x ∈ p.positions)

instance (p : Player) : Decidable (playerInv p) := by
  unfold playerInv
  infer_instance

/-- Membership survives the checked insertion used by the `Set.add` model. -/
lemma mem_insertList {x c : Coordinate} {l : List Coordinate} (hx : x ∈ l) :
    x ∈ (if c ∈ l then l else l ++ [c]) := by
  split
  · exact hx
  · exact List.mem_append.mpr (Or.inl hx)

/-- The inserted element is a member after the checked insertion. -/
lemma self_mem_insertList (c : Coordinate) (l : List Coordinate) :
    c ∈ (if c ∈ l then l else l ++ [c]) := by
  split
  · assumption
  · exact List.mem_append.mpr (Or.inr (List.mem_singleton.mpr rfl))

/-- Characterization of membership after the checked insertion. -/
lemma mem_insertList_iff {x c : Coordinate} {l : List Coordinate} :
    x ∈ (if c ∈ l then l else l ++ [c]) ↔ (x ∈ l ∨ x = c) := by
  split_ifs with hc
  · constructor
    · exact Or.inl
    · rintro (hx | rfl) <;> assumption
  · simp [List.mem_append]

/-- Adding a position preserves the subset invariant. -/
lemma playerInv_addPosition (p : Player) (c : Coordinate) (h : playerInv p) :
    playerInv (p.addPosition c) :=
  ⟨fun x hx => mem_insertList (h.1 x hx), fun x hx => mem_insertList (h.2 x hx)⟩

/-- Capturing a power source and then claiming its cell preserves the
subset invariant. -/
lemma playerInv_addPowerSource_addPosition (p : Player) (c : Coordinate) (h : playerInv p) :
    playerInv ((p.addPowerSource c).addPosition c) := by
  constructor
  · intro x hx
    rcases mem_insertList_iff.mp hx with hx' | rfl
    · exact mem_insertList (h.1 x hx')
    · exact self_mem_insertList x p.positions
  · intro x hx
    exact mem_insertList (h.2 x hx)

/-- Capturing a magic well and then claiming its cell preserves the
subset invariant. -/
lemma playerInv_addMagicWell_addPosition (p : Player) (c : Coordinate) (h : playerInv p) :
    playerInv ((p.addMagicWell c).addPosition c) := by
  constructor
  · intro x hx
    exact mem_insertList (h.1 x hx)
  · intro x hx
    rcases mem_insertList_iff.mp hx with hx' | rfl
    · exact mem_insertList (h.2 x hx')
    · exact self_mem_insertList x p.positions

/-- Dropping a power source preserves the subset invariant. -/
lemma playerInv_removePowerSource (p : Player) (c : Coordinate) (h : playerInv p) :
    playerInv (p.removePowerSource c) :=
  ⟨fun x hx => h.1 x (List.mem_of_mem_filter hx), fun x hx => h.2 x hx⟩

/-- Dropping a magic well preserves the subset invariant. -/
lemma playerInv_removeMagicWell (p : Player) (c : Coordinate) (h : playerInv p) :
    playerInv (p.removeMagicWell c) :=
  ⟨fun x hx => h.1 x hx, fun x hx => h.2 x (List.mem_of_mem_filter hx)⟩

/-- The cascading removal preserves the subset invariant. -/
lemma playerInv_removePosition (p : Player) (c : Coordinate) (h : playerInv p) :
    playerInv (p.removePosition c) := by
  constructor
  · intro x hx
    have hx' := List.mem_filter.mp hx
    exact List.mem_filter.mpr ⟨h.1 x hx'.1, hx'.2⟩
  · intro x hx
    have hx' := List.mem_filter.mp hx
    exact List.mem_filter.mpr ⟨h.2 x hx'.1, hx'.2⟩

/-- A processed conquer preserves the acting side's subset invariant. -/
lemma conquer_acting_inv (s : GameState) (pid : PlayerId) (c : Coordinate) (s' : GameState)
    (h : validateAndExecuteConquer s pid c = some s')
    (hinv : playerInv (s.getPlayer pid)) : playerInv (s'.getPlayer pid) := by
  unfold validateAndExecuteConquer at h
  split_ifs at h
  rcases hsp : s.specials.get c with _ | sp
  · rw [hsp] at h
    simp only [Option.some.injEq] at h
    subst h
    rw [GameState.getPlayer_claimCell, if_pos rfl]
    exact playerInv_addPosition _ _ hinv
  · rw [hsp] at h
    rcases sp <;> simp only [Option.some.injEq] at h <;> subst h <;>
      rw [GameState.getPlayer_claimCell, if_pos rfl]
    · rw [GameState.getPlayer_updatePlayer, if_pos rfl, GameState.getPlayer_eraseSpecialAt]
      exact playerInv_addPowerSource_addPosition _ _ hinv
    · rw [GameState.getPlayer_updatePlayer, if_pos rfl, GameState.getPlayer_eraseSpecialAt]
      exact playerInv_addMagicWell_addPosition _ _ hinv
    · exact playerInv_addPosition _ _ hinv

/-- A processed fortify preserves the acting side's subset invariant. -/
lemma fortify_acting_inv (s : GameState) (pid : PlayerId) (c : Coordinate) (s' : GameState)
    (h : validateAndExecuteFortify s pid c = some s')
    (hinv : playerInv (s.getPlayer pid)) : playerInv (s'.getPlayer pid) := by
  unfold validateAndExecuteFortify at h
  split_ifs at h
  rcases hsp : s.specials.get c with _ | sp
  · rw [hsp] at h
    simp only [Option.some.injEq] at h
    subst h
    rw [GameState.getPlayer_withSpecials]
    exact hinv
  · rw [hsp] at h
    rcases sp <;> simp only [Option.some.injEq] at h <;> subst h <;>
      rw [GameState.getPlayer_withSpecials]
    · rw [GameState.getPlayer_updatePlayer, if_pos rfl, GameState.getPlayer_eraseSpecialAt]
      exact playerInv_removePowerSource _ _ hinv
    · rw [GameState.getPlayer_updatePlayer, if_pos rfl, GameState.getPlayer_eraseSpecialAt]
      exact playerInv_removeMagicWell _ _ hinv
    · rw [GameState.getPlayer_eraseSpecialAt]
      exact hinv

/-- A processed attack preserves both sides' subset invariants. -/
lemma attack_preserves_inv (s : GameState) (pid : PlayerId) (c : Coordinate)
    (ab db : Nat) (s' : GameState)
    (h : validateAndExecuteAttack s pid c ab db = some s')
    (hpid : playerInv (s.getPlayer pid)) (hopp : playerInv (s.getPlayer (opponentId pid))) :
    playerInv (s'.getPlayer pid) ∧ playerInv (s'.getPlayer (opponentId pid)) := by
  unfold validateAndExecuteAttack at h
  split_ifs at h with hv ho ha
  by_cases hroll : defenseRollAt s pid c db < attackRollAt s pid ab
  · rw [if_pos hroll] at h
    simp only [Option.some.injEq] at h
    subst h
    constructor
    · rw [GameState.getPlayer_claimCell, if_pos rfl]
      rcases hsp : s.specials.get c with _ | sp
      · simp only [hsp]
        rw [GameState.getPlayer_updatePlayer, if_neg (opponentId_ne pid)]
        exact playerInv_addPosition _ _ hpid
      · rcases sp <;> simp only [hsp]
        · rw [GameState.getPlayer_updatePlayer, if_pos rfl, GameState.getPlayer_eraseSpecialAt,
            GameState.getPlayer_updatePlayer, if_neg (opponentId_ne pid),
            GameState.getPlayer_updatePlayer, if_neg (opponentId_ne pid)]
          exact playerInv_addPowerSource_addPosition _ _ hpid
        · rw [GameState.getPlayer_updatePlayer, if_pos rfl, GameState.getPlayer_eraseSpecialAt,
            GameState.getPlayer_updatePlayer, if_neg (opponentId_ne pid),
            GameState.getPlayer_updatePlayer, if_neg (opponentId_ne pid)]
          exact playerInv_addMagicWell_addPosition _ _ hpid
        · rw [GameState.getPlayer_eraseSpecialAt,
            GameState.getPlayer_updatePlayer, if_neg (opponentId_ne pid)]
          exact playerInv_addPosition _ _ hpid
    · rw [GameState.getPlayer_claimCell, if_neg (opponentId_ne pid).symm]
      rcases hsp : s.specials.get c with _ | sp
      · simp only [hsp]
        rw [GameState.getPlayer_updatePlayer, if_pos rfl]
        exact playerInv_removePosition _ _ hopp
      · rcases sp <;> simp only [hsp]
        · rw [GameState.getPlayer_updatePlayer, if_neg (opponentId_ne pid).symm,
            GameState.getPlayer_eraseSpecialAt,
            GameState.getPlayer_updatePlayer, if_pos rfl,
            GameState.getPlayer_updatePlayer, if_pos rfl]
          exact playerInv_removePowerSource _ _ (playerInv_removePosition _ _ hopp)
        · rw [GameState.getPlayer_updatePlayer, if_neg (opponentId_ne pid).symm,
            GameState.getPlayer_eraseSpecialAt,
            GameState.getPlayer_updatePlayer, if_pos rfl,
            GameState.getPlayer_updatePlayer, if_pos rfl]
          exact playerInv_removeMagicWell _ _ (playerInv_removePosition _ _ hopp)
        · rw [GameState.getPlayer_eraseSpecialAt,
            GameState.getPlayer_updatePlayer, if_pos rfl]
          exact playerInv_removePosition _ _ hopp
  · rw [if_neg hroll] at h
    simp only [Option.some.injEq] at h
    subst h
    exact ⟨hpid, hopp⟩

/-- Each player id is the actor or the actor's opponent. -/
lemma playerId_eq_or_opponent (j pid : PlayerId) : j = pid ∨ j = opponentId pid := by
  revert j pid
  decide

/-- C7: the removal of a coordinate from a side's ownership cascades to
remove it from both special subsets, and every processed action preserves
the invariant that each side's power and magic subsets are contained in
its owned-coordinates set. -/
theorem ownership_subsets_invariant :
    (∀ (p : Player) (c : Coordinate),
       c ∉ (p.removePosition c).positions ∧
       c ∉ (p.removePosition c).ownedPowerSources ∧
       c ∉ (p.removePosition c).ownedMagicWells) ∧
    (∀ (s : GameState) (pid : PlayerId) (a : AIActionType) (c : Coordinate) (ab db : Nat)
       (s' : GameState),
       playerInv (s.getPlayer 0) → playerInv (s.getPlayer 1) →
       processPlayerAction s pid a c ab db = some s' →
       playerInv (s'.getPlayer 0) ∧ playerInv (s'.getPlayer 1)) := by
  constructor
  · intro p c
    refine ⟨?_, ?_, ?_⟩ <;>
      · intro hc
        have := List.mem_filter.mp hc
        simp at this
  · intro s pid a c ab db s' h0 h1 h
    have hpid : playerInv (s.getPlayer pid) := by
      rcases playerId_cases pid with hp | hp <;> rw [hp] <;> assumption
    have hopp : playerInv (s.getPlayer (opponentId pid)) := by
      rcases playerId_cases (opponentId pid) with hp | hp <;> rw [hp] <;> assumption
    have hall : ∀ j : PlayerId, playerInv (s'.getPlayer j) := by
      intro j
      rcases a with _ | _ | _
      · rw [show processPlayerAction s pid AIActionType.CONQUER c ab db
            = validateAndExecuteConquer s pid c from rfl] at h
        rcases playerId_eq_or_opponent j pid with hj | hj <;> rw [hj]
        · exact conquer_acting_inv s pid c s' h hpid
        · rw [conquer_opponent_player s pid c s' h]
          exact hopp
      · rw [show processPlayerAction s pid AIActionType.FORTIFY c ab db
            = validateAndExecuteFortify s pid c from rfl] at h
        rcases playerId_eq_or_opponent j pid with hj | hj <;> rw [hj]
        · exact fortify_acting_inv s pid c s' h hpid
        · rw [fortify_opponent_player s pid c s' h]
          exact hopp
      · rw [show processPlayerAction s pid AIActionType.ATTACK c ab db
            = validateAndExecuteAttack s pid c ab db from rfl] at h
        rcases playerId_eq_or_opponent j pid with hj | hj <;> rw [hj]
        · exact (attack_preserves_inv s pid c ab db s' h hpid hopp).1
        · exact (attack_preserves_inv s pid c ab db s' h hpid hopp).2
    exact ⟨hall 0, hall 1⟩

/-- Concrete state for the C7 witness: X at (0,0); O at (0,1) where a
power source still sits on the board overlay. -/
def c7State : GameState :=
  ⟨⟨5, [[CellState.mark 0, CellState.mark 1, CellState.empty, CellState.empty, CellState.empty],
        [CellState.empty, CellState.empty, CellState.empty, CellState.empty, CellState.empty],
        [CellState.empty, CellState.empty, CellState.empty, CellState.empty, CellState.empty],
        [CellState.empty, CellState.empty, CellState.empty, CellState.empty, CellState.empty],
        [CellState.empty, CellState.empty, CellState.empty, CellState.empty, CellState.empty]]⟩,
   ⟨0, [⟨0, 0⟩], [], []⟩, ⟨1, [⟨0, 1⟩], [⟨0, 1⟩], []⟩, 0,
   ⟨[(⟨0, 1⟩, SpecialType.powerSource)]⟩, none, none⟩

/-- State after X's winning attack on (0,1) in `c7State`: the defender's
ownership and power subset are cascaded away, the attacker gains both. -/
def c7After : GameState :=
  ⟨⟨5, [[CellState.mark 0, CellState.mark 0, CellState.empty, CellState.empty, CellState.empty],
        [CellState.empty, CellState.empty, CellState.empty, CellState.empty, CellState.empty],
        [CellState.empty, CellState.empty, CellState.empty, CellState.empty, CellState.empty],
        [CellState.empty, CellState.empty, CellState.empty, CellState.empty, CellState.empty],
        [CellState.empty, CellState.empty, CellState.empty, CellState.empty, CellState.empty]]⟩,
   ⟨0, [⟨0, 0⟩, ⟨0, 1⟩], [⟨0, 1⟩], []⟩, ⟨1, [], [], []⟩, 0, ⟨[]⟩, none, none⟩

/-- C7 witness: the invariant-preservation half applied to a concrete won
attack that captures a power source. -/
theorem ownership_subsets_invariant_witness :
    playerInv (c7After.getPlayer 0) ∧ playerInv (c7After.getPlayer 1) :=
  ownership_subsets_invariant.2 c7State 0 AIActionType.ATTACK ⟨0, 1⟩ 6 1 c7After
    (by decide) (by decide) (by decide)

/-- Manhattan distance 1 is exactly reachability by one orthogonal delta. -/
lemma dist_one_iff (o t : Coordinate) :
    (o.row - t.row).natAbs + (o.col - t.col).natAbs = 1 ↔
    ∃ d ∈ deltas, t = ⟨o.row + d.1, o.col + d.2⟩ := by
  cases o with
  | mk orow ocol =>
    cases t with
    | mk trow tcol =>
      simp only [deltas, List.mem_cons, List.not_mem_nil, or_false, Coordinate.mk.injEq]
      constructor
      · intro h
        by_cases h1 : trow = orow + -1
        · exact ⟨(-1, 0), Or.inl rfl, h1, by omega⟩
        · by_cases h2 : trow = orow + 1
          · exact ⟨(1, 0), Or.inr (Or.inl rfl), h2, by omega⟩
          · by_cases h3 : tcol = ocol + -1
            · exact ⟨(0, -1), Or.inr (Or.inr (Or.inl rfl)), by omega, h3⟩
            · exact ⟨(0, 1), Or.inr (Or.inr (Or.inr rfl)), by omega, by omega⟩
      · rintro ⟨d, hd, hr, hc⟩
        rcases hd with rfl | rfl | rfl | rfl <;> simp at hr hc <;> omega

/-- Reaching a coordinate by one delta from an owned cell is adjacency. -/
lemma exists_delta_iff_adjacent (t : Coordinate) (player : Player) :
    (∃ o ∈ player.positions, ∃ d ∈ deltas, t = ⟨o.row + d.1, o.col + d.2⟩) ↔
    isAdjacent t player = true := by
  rw [isAdjacent_eq_true_iff]
  constructor
  · rintro ⟨o, ho, d, hd, rfl⟩
    exact ⟨o, ho, (dist_one_iff o _).mpr ⟨d, hd, rfl⟩⟩
  · rintro ⟨o, ho, hdist⟩
    obtain ⟨d, hd, ht⟩ := (dist_one_iff o t).mp hdist
    exact ⟨o, ho, d, hd, ht⟩

/-- Characterization of one adjacent-cell check of `getValidMoves`. -/
lemma neighborMove_eq_some (opponent : Player) (g : Grid) (sp : SpecialsMap)
    (o : Coordinate) (d : Int × Int) (m : AIMove) :
    neighborMove opponent g sp o d = some m ↔
    (g.isValidCoordinate ⟨o.row + d.1, o.col + d.2⟩ = true ∧
      ((g.getCell ⟨o.row + d.1, o.col + d.2⟩ = CellState.empty ∧
          (sp.get ⟨o.row + d.1, o.col + d.2⟩ = none ∨
           sp.get ⟨o.row + d.1, o.col + d.2⟩ = some SpecialType.shield) ∧
          m = ⟨AIActionType.CONQUER, ⟨o.row + d.1, o.col + d.2⟩, none⟩) ∨
       (g.getCell ⟨o.row + d.1, o.col + d.2⟩ ≠ CellState.empty ∧
          opponent.ownsPosition ⟨o.row + d.1, o.col + d.2⟩ = true ∧
          m = ⟨AIActionType.ATTACK, ⟨o.row + d.1, o.col + d.2⟩, none⟩))) := by
  simp only [neighborMove]
  split_ifs with h1 h2 h3 h4 <;> simp_all <;> tauto

/-- Characterization of the per-cell move list. -/
lemma mem_movesFromCell (opponent : Player) (g : Grid) (sp : SpecialsMap)
    (o : Coordinate) (m : AIMove) :
    m ∈ movesFromCell opponent g sp o ↔
    ((sp.get o ≠ some SpecialType.shield ∧ m = ⟨AIActionType.FORTIFY, o, none⟩) ∨
     (∃ d ∈ deltas, neighborMove opponent g sp o d = some m)) := by
  unfold movesFromCell
  rw [List.mem_append, List.mem_filterMap]
  constructor
  · rintro (hf | ⟨d, hd, hnd⟩)
    · split_ifs at hf with hs
      · simp only [List.mem_singleton] at hf
        exact Or.inl ⟨hs, hf⟩
      · cases hf
    · exact Or.inr ⟨d, hd, hnd⟩
  · rintro (⟨hs, rfl⟩ | ⟨d, hd, hnd⟩)
    · left
      rw [if_pos hs]
      exact List.mem_singleton.mpr rfl
    · exact Or.inr ⟨d, hd, hnd⟩

/-- Deduplication only drops moves. -/
lemma dedupGo_subset (ms : List AIMove) (seen : List (AIActionType × Coordinate)) :
    ∀ m ∈ dedupGo ms seen, m ∈ ms := by
  induction ms generalizing seen with
  | nil =>
    intro m hm
    simp [dedupGo] at hm
  | cons a rest ih =>
    intro m hm
    unfold dedupGo at hm
    split_ifs at hm with hseen
    · exact List.mem_cons_of_mem a (ih _ m hm)
    · rcases List.mem_cons.mp hm with rfl | hm'
      · exact List.mem_cons_self _ _
      · exact List.mem_cons_of_mem a (ih _ m hm')

/-- Deduplication never emits a key it has already seen. -/
lemma dedupGo_key_not_seen (ms : List AIMove) (seen : List (AIActionType × Coordinate)) :
    ∀ m ∈ dedupGo ms seen, moveKey m ∉ seen := by
  induction ms generalizing seen with
  | nil =>
    intro m hm
    simp [dedupGo] at hm
  | cons a rest ih =>
    intro m hm
    unfold dedupGo at hm
    split_ifs at hm with hseen
    · exact ih _ m hm
    · rcases List.mem_cons.mp hm with rfl | hm'
      · exact hseen
      · intro hk
        exact (ih _ m hm') (List.mem_cons_of_mem _ hk)

/-- The emitted `(action, coordinate)` keys are duplicate-free. -/
lemma dedupGo_keys_nodup (ms : List AIMove) (seen : List (AIActionType × Coordinate)) :
    ((dedupGo ms seen).map moveKey).Nodup := by
  induction ms generalizing seen with
  | nil => simp [dedupGo]
  | cons a rest ih =>
    unfold dedupGo
    split_ifs with hseen
    · exact ih _
    · simp only [List.map_cons, List.nodup_cons]
      refine ⟨fun hk => ?_, ih _⟩
      rcases List.mem_map.mp hk with ⟨m, hm, hkey⟩
      exact (dedupGo_key_not_seen _ _ m hm) (by rw [hkey]; exact List.mem_cons_self _ _)

/-- Deduplication keeps every move of a key-injective list whose key was
not seen before. -/
lemma dedupGo_mem_of_mem (ms : List AIMove) (seen : List (AIActionType × Coordinate)) (m : AIMove)
    (hm : m ∈ ms) (hkey : moveKey m ∉ seen)
    (hinj : ∀ a ∈ ms, ∀ b ∈ ms, moveKey a = moveKey b → a = b) :
    m ∈ dedupGo ms seen := by
  induction ms generalizing seen with
  | nil => cases hm
  | cons a rest ih =>
    unfold dedupGo
    have hinj' : ∀ x ∈ rest, ∀ y ∈ rest, moveKey x = moveKey y → x = y :=
      fun x hx y hy => hinj x (List.mem_cons_of_mem a hx) y (List.mem_cons_of_mem a hy)
    rcases List.mem_cons.mp hm with rfl | hm'
    · rw [if_neg hkey]
      exact List.mem_cons_self _ _
    · split_ifs with hseen
      · exact ih _ hm' hkey hinj'
      · by_cases hma : m = a
        · subst hma
          exact List.mem_cons_self _ _
        · refine List.mem_cons_of_mem a (ih _ hm' ?_ hinj')
          intro hk
          rcases List.mem_cons.mp hk with hke | hks
          · exact hma (hinj m (List.mem_cons_of_mem a hm') a (List.mem_cons_self a rest) hke)
          · exact hkey hks

/-- Two moves with no well target and the same key are equal. -/
lemma key_inj_of_wellTarget_none (a b : AIMove)
    (ha : a.magicWellTargetCoord = none) (hb : b.magicWellTargetCoord = none)
    (hk : moveKey a = moveKey b) : a = b := by
  cases a
  cases b
  simp only [moveKey, Prod.mk.injEq] at hk
  simp_all

/-- Every move produced by the per-cell loop carries no well target. -/
lemma rawMoves_wellTarget_none (player opponent : Player) (g : Grid) (sp : SpecialsMap) :
    ∀ m ∈ player.positions.flatMap (movesFromCell opponent g sp),
      m.magicWellTargetCoord = none := by
  intro m hm
  rcases List.mem_flatMap.mp hm with ⟨o, _, hmo⟩
  rcases (mem_movesFromCell opponent g sp o m).mp hmo with ⟨_, rfl⟩ | ⟨d, _, hnd⟩
  · rfl
  · rcases ((neighborMove_eq_some opponent g sp o d m).mp hnd).2 with ⟨_, _, rfl⟩ | ⟨_, _, rfl⟩ <;>
      rfl

/-- Characterization of the move list before deduplication. -/
lemma mem_rawMoves_iff (player opponent : Player) (g : Grid) (sp : SpecialsMap)
    (hcons : ∀ c ∈ opponent.positions, g.getCell c ≠ CellState.empty) (m : AIMove) :
    m ∈ player.positions.flatMap (movesFromCell opponent g sp) ↔
    (m.magicWellTargetCoord = none ∧
      ((m.action = AIActionType.FORTIFY ∧ m.coord ∈ player.positions ∧
          sp.get m.coord ≠ some SpecialType.shield) ∨
       (m.action = AIActionType.CONQUER ∧ g.isValidCoordinate m.coord = true ∧
          isAdjacent m.coord player = true ∧ g.getCell m.coord = CellState.empty ∧
          (sp.get m.coord = none ∨ sp.get m.coord = some SpecialType.shield)) ∨
       (m.action = AIActionType.ATTACK ∧ g.isValidCoordinate m.coord = true ∧
          isAdjacent m.coord player = true ∧ opponent.ownsPosition m.coord = true))) := by
  rw [List.mem_flatMap]
  constructor
  · rintro ⟨o, ho, hmo⟩
    rcases (mem_movesFromCell opponent g sp o m).mp hmo with ⟨hs, rfl⟩ | ⟨d, hd, hnd⟩
    · exact ⟨rfl, Or.inl ⟨rfl, ho, hs⟩⟩
    · obtain ⟨hvalid, hcase⟩ := (neighborMove_eq_some opponent g sp o d m).mp hnd
      have hadj : isAdjacent (⟨o.row + d.1, o.col + d.2⟩ : Coordinate) player = true :=
        (exists_delta_iff_adjacent _ player).mp ⟨o, ho, d, hd, rfl⟩
      rcases hcase with ⟨hempty, hspec, rfl⟩ | ⟨hne, hown, rfl⟩
      · exact ⟨rfl, Or.inr (Or.inl ⟨rfl, hvalid, hadj, hempty, hspec⟩)⟩
      · exact ⟨rfl, Or.inr (Or.inr ⟨rfl, hvalid, hadj, hown⟩)⟩
  · rintro ⟨hwell, hfort | hconq | hatt⟩
    · obtain ⟨hact, hcoord, hs⟩ := hfort
      refine ⟨m.coord, hcoord,
        (mem_movesFromCell opponent g sp m.coord m).mpr (Or.inl ⟨hs, ?_⟩)⟩
      cases m
      simp_all
    · obtain ⟨hact, hvalid, hadj, hempty, hspec⟩ := hconq
      obtain ⟨o, ho, d, hd, ht⟩ := (exists_delta_iff_adjacent m.coord player).mpr hadj
      refine ⟨o, ho, (mem_movesFromCell opponent g sp o m).mpr (Or.inr ⟨d, hd, ?_⟩)⟩
      rw [neighborMove_eq_some, ← ht]
      refine ⟨hvalid, Or.inl ⟨hempty, hspec, ?_⟩⟩
      cases m
      simp_all
    · obtain ⟨hact, hvalid, hadj, hown⟩ := hatt
      obtain ⟨o, ho, d, hd, ht⟩ := (exists_delta_iff_adjacent m.coord player).mpr hadj
      refine ⟨o, ho, (mem_movesFromCell opponent g sp o m).mpr (Or.inr ⟨d, hd, ?_⟩)⟩
      rw [neighborMove_eq_some, ← ht]
      have hne : g.getCell m.coord ≠ CellState.empty :=
        hcons m.coord (by simpa [Player.ownsPosition] using hown)
      refine ⟨hvalid, Or.inr ⟨hne, hown, ?_⟩⟩
      cases m
      simp_all

/-- C3 (amended): in any state whose grid shows a non-empty mark on every
opponent-owned coordinate, `getValidMoves` emits Fortify for each owned
coordinate iff it carries no shield; Conquer for each in-bounds orthogonal
neighbor iff its cell mark is empty AND it carries no power source or
magic well (an empty neighbor bearing one of those specials is excluded);
Attack for each in-bounds orthogonal neighbor iff the opponent owns it;
and the emitted `(action, coordinate)` keys are duplicate-free. -/
theorem getValidMoves_characterization (player opponent : Player) (g : Grid) (sp : SpecialsMap)
    (hcons : ∀ c ∈ opponent.positions, g.getCell c ≠ CellState.empty) :
    (∀ m : AIMove, m ∈ getValidMoves player opponent g sp ↔
      (m.magicWellTargetCoord = none ∧
        ((m.action = AIActionType.FORTIFY ∧ m.coord ∈ player.positions ∧
            sp.get m.coord ≠ some SpecialType.shield) ∨
         (m.action = AIActionType.CONQUER ∧ g.isValidCoordinate m.coord = true ∧
            isAdjacent m.coord player = true ∧ g.getCell m.coord = CellState.empty ∧
            (sp.get m.coord = none ∨ sp.get m.coord = some SpecialType.shield)) ∨
         (m.action = AIActionType.ATTACK ∧ g.isValidCoordinate m.coord = true ∧
            isAdjacent m.coord player = true ∧ opponent.ownsPosition m.coord = true)))) ∧
    ((getValidMoves player opponent g sp).map moveKey).Nodup := by
  constructor
  · intro m
    constructor
    · intro hm
      exact (mem_rawMoves_iff player opponent g sp hcons m).mp
        (dedupGo_subset _ _ m hm)
    · intro hchar
      have hraw := (mem_rawMoves_iff player opponent g sp hcons m).mpr hchar
      exact dedupGo_mem_of_mem _ [] m hraw (by simp)
        (fun a ha b hb hk => key_inj_of_wellTarget_none a b
          (rawMoves_wellTarget_none player opponent g sp a ha)
          (rawMoves_wellTarget_none player opponent g sp b hb) hk)
  · exact dedupGo_keys_nodup _ _

/-- Acting side for C3: X owns (0,0). -/
def c3P : Player := ⟨0, [⟨0, 0⟩], [], []⟩

/-- Opponent for C3: O owns (4,4). -/
def c3O : Player := ⟨1, [⟨4, 4⟩], [], []⟩

/-- Grid for C3: X at (0,0), O at (4,4), everything else empty. -/
def c3Grid : Grid :=
  ⟨5, [[CellState.mark 0, CellState.empty, CellState.empty, CellState.empty, CellState.empty],
       [CellState.empty, CellState.empty, CellState.empty, CellState.empty, CellState.empty],
       [CellState.empty, CellState.empty, CellState.empty, CellState.empty, CellState.empty],
       [CellState.empty, CellState.empty, CellState.empty, CellState.empty, CellState.empty],
       [CellState.empty, CellState.empty, CellState.empty, CellState.empty, CellState.mark 1]]⟩

/-- Specials overlay for C3: a power source on the empty cell (0,1). -/
def c3Sp : SpecialsMap := ⟨[(⟨0, 1⟩, SpecialType.powerSource)]⟩

/-- C3 counterexample: the cell (0,1) is empty, in bounds and adjacent to
X's territory, yet `getValidMoves` does NOT emit Conquer((0,1)) because a
power source sits there — refuting "Expand(neighbor) iff the neighbor's
Cell Mark is Empty". -/
theorem getValidMoves_counterexample :
    (⟨AIActionType.CONQUER, ⟨0, 1⟩, none⟩ : AIMove) ∉ getValidMoves c3P c3O c3Grid c3Sp ∧
    c3Grid.getCell ⟨0, 1⟩ = CellState.empty ∧
    isAdjacent ⟨0, 1⟩ c3P = true ∧
    c3Grid.isValidCoordinate ⟨0, 1⟩ = true := by decide

/-- C3 witness: the characterization applied to the concrete state:
Fortify((0,0)) is emitted and the emitted keys are duplicate-free. -/
theorem getValidMoves_characterization_witness :
    (⟨AIActionType.FORTIFY, ⟨0, 0⟩, none⟩ : AIMove) ∈ getValidMoves c3P c3O c3Grid c3Sp ∧
    ((getValidMoves c3P c3O c3Grid c3Sp).map moveKey).Nodup :=
  ⟨((getValidMoves_characterization c3P c3O c3Grid c3Sp (by decide)).1 _).mpr (by decide),
   (getValidMoves_characterization c3P c3O c3Grid c3Sp (by decide)).2⟩

/-- A parsed coordinate is always inside the `GRID_SIZE` board. -/
lemma parseCoordinateInput_bounds {s : String} {c : Coordinate}
    (h : parseCoordinateInput s = some c) :
    0 ≤ c.row ∧ c.row < (GameConstants.GRID_SIZE : Int) ∧
    0 ≤ c.col ∧ c.col < (GameConstants.GRID_SIZE : Int) := by
  unfold parseCoordinateInput at h
  rcases hm : jsUpper (jsTrim s.data) with _ | ⟨rc, rest⟩ <;> simp only [hm] at h
  · cases h
  · split_ifs at h with hA
    · rcases hr : skipOneWs rest with _ | ⟨d, ds⟩ <;> simp only [hr] at h
      · cases h
      · split_ifs at h with hD hB
        simp only [Option.some.injEq] at h
        subst h
        exact hB

/-- A parsed AI reply carries an in-bounds main coordinate. -/
lemma parseAIResponse_coord_bounds {txt : String} {p : AIMove}
    (h : parseAIResponse txt = some p) :
    0 ≤ p.coord.row ∧ p.coord.row < (GameConstants.GRID_SIZE : Int) ∧
    0 ≤ p.coord.col ∧ p.coord.col < (GameConstants.GRID_SIZE : Int) := by
  unfold parseAIResponse at h
  rcases hl : splitOnNl (jsUpper (jsTrim txt.data)) with _ | ⟨mainLine, restLines⟩ <;>
    simp only [hl] at h
  · cases h
  · rcases hma : matchMainAction mainLine with _ | ⟨act, tok⟩ <;> simp only [hma] at h
    · cases h
    · rcases hpc : parseCoordinateInput (String.mk tok) with _ | coord <;> simp only [hpc] at h
      · cases h
      · simp only [Option.some.injEq] at h
        subst h
        exact parseCoordinateInput_bounds hpc

/-- A validated suggestion keeps its action and coordinate and satisfies
the rules re-derivation of its legality. -/
lemma validateParsed_eq_some (aiPlayer humanPlayer : Player) (grid : Grid)
    (specials : SpecialsMap) (p0 p : AIMove)
    (h : validateParsed aiPlayer humanPlayer grid specials p0 = some p) :
    p.action = p0.action ∧ p.coord = p0.coord ∧
    (match p0.action with
     | AIActionType.CONQUER =>
         grid.getCell p0.coord = CellState.empty ∧ isAdjacent p0.coord aiPlayer = true
     | AIActionType.FORTIFY =>
         aiPlayer.ownsPosition p0.coord = true ∧
         specials.get p0.coord ≠ some SpecialType.shield
     | AIActionType.ATTACK =>
         humanPlayer.ownsPosition p0.coord = true ∧ isAdjacent p0.coord aiPlayer = true) := by
  simp only [validateParsed] at h
  split_ifs at h with hok
  have hfields : p.action = p0.action ∧ p.coord = p0.coord := by
    rcases hw : p0.magicWellTargetCoord with _ | w <;> simp only [hw] at h
    · simp only [Option.some.injEq] at h
      subst h
      exact ⟨rfl, rfl⟩
    · split_ifs at h <;> simp only [Option.some.injEq] at h <;> subst h <;> exact ⟨rfl, rfl⟩
  refine ⟨hfields.1, hfields.2, ?_⟩
  rcases ha : p0.action <;> rw [ha] at hok <;>
    simp only [Bool.and_eq_true, decide_eq_true_eq] at hok <;>
    exact hok

/-- A move produced by the retry loop came from a parsed reply that passed
the validation step. -/
lemma runAttempts_eq_some (aiPlayer humanPlayer : Player) (grid : Grid) (specials : SpecialsMap) :
    ∀ (rs : List (Option String)) (n : Nat) (p : AIMove),
      runAttempts aiPlayer humanPlayer grid specials rs n = some p →
      ∃ p0, validateParsed aiPlayer humanPlayer grid specials p0 = some p ∧
        ∃ txt, parseAIResponse txt = some p0 := by
  intro rs n
  induction n generalizing rs with
  | zero =>
    intro p h
    cases h
  | succ k ih =>
    intro p h
    unfold runAttempts at h
    rcases hh : rs.headD none with _ | txt <;> simp only [hh] at h
    · exact ih rs.tail p h
    · rcases hp : parseAIResponse txt with _ | p0 <;> simp only [hp] at h
      · exact ih rs.tail p h
      · rcases hv : validateParsed aiPlayer humanPlayer grid specials p0 with _ | p1 <;>
          simp only [hv] at h
        · exact ih rs.tail p h
        · simp only [Option.some.injEq] at h
          subst h
          exact ⟨p0, hv, txt, hp⟩

/-- A successful uniform draw yields a member of the list. -/
lemma getRandomElement_mem {α : Type} {arr : List α} {r : Nat} {a : α}
    (h : getRandomElement arr r = some a) : a ∈ arr := by
  unfold getRandomElement at h
  split_ifs at h with h0
  have hlt : r % arr.length < arr.length := Nat.mod_lt _ (Nat.pos_of_ne_zero h0)
  rw [List.get?_eq_getElem?, List.getElem?_eq_getElem hlt] at h
  simp only [Option.some.injEq] at h
  subst h
  exact List.getElem_mem hlt

/-- The uniform draw fails exactly on the empty list. -/
lemma getRandomElement_eq_none {α : Type} {arr : List α} {r : Nat}
    (h : getRandomElement arr r = none) : arr = [] := by
  unfold getRandomElement at h
  split_ifs at h with h0
  · exact List.length_eq_zero.mp h0
  · have hlt : r % arr.length < arr.length := Nat.mod_lt _ (Nat.pos_of_ne_zero h0)
    rw [List.get?_eq_getElem?, List.getElem?_eq_getElem hlt] at h
    cases h

/-- The legality facts carried by membership in `getValidMoves` (no
assumption on the state needed in this direction). -/
lemma mem_getValidMoves_facts (player opponent : Player) (g : Grid) (sp : SpecialsMap)
    (m : AIMove) (hm : m ∈ getValidMoves player opponent g sp) :
    (m.action = AIActionType.FORTIFY ∧ m.coord ∈ player.positions ∧
       sp.get m.coord ≠ some SpecialType.shield) ∨
    (m.action = AIActionType.CONQUER ∧ g.isValidCoordinate m.coord = true ∧
       isAdjacent m.coord player = true ∧ g.getCell m.coord = CellState.empty) ∨
    (m.action = AIActionType.ATTACK ∧ g.isValidCoordinate m.coord = true ∧
       isAdjacent m.coord player = true ∧ opponent.ownsPosition m.coord = true) := by
  have hraw := dedupGo_subset _ _ m hm
  rcases List.mem_flatMap.mp hraw with ⟨o, ho, hmo⟩
  rcases (mem_movesFromCell opponent g sp o m).mp hmo with ⟨hs, rfl⟩ | ⟨d, hd, hnd⟩
  · exact Or.inl ⟨rfl, ho, hs⟩
  · obtain ⟨hvalid, hcase⟩ := (neighborMove_eq_some opponent g sp o d m).mp hnd
    have hadj : isAdjacent (⟨o.row + d.1, o.col + d.2⟩ : Coordinate) player = true :=
      (exists_delta_iff_adjacent _ player).mp ⟨o, ho, d, hd, rfl⟩
    rcases hcase with ⟨hempty, _, rfl⟩ | ⟨_, hown, rfl⟩
    · exact Or.inr (Or.inl ⟨rfl, hvalid, hadj, hempty⟩)
    · exact Or.inr (Or.inr ⟨rfl, hvalid, hadj, hown⟩)

/-- The conquer preconditions guarantee a processed action. -/
lemma conquer_isSome (s : GameState) (pid : PlayerId) (c : Coordinate)
    (hv : s.grid.isValidCoordinate c = true)
    (he : s.grid.getCell c = CellState.empty)
    (ha : isAdjacent c (s.getPlayer pid) = true) :
    validateAndExecuteConquer s pid c ≠ none := by
  unfold validateAndExecuteConquer
  rw [hv, he, ha]
  simp

/-- The fortify preconditions guarantee a processed action. -/
lemma fortify_isSome (s : GameState) (pid : PlayerId) (c : Coordinate)
    (hv : s.grid.isValidCoordinate c = true)
    (ho : (s.getPlayer pid).ownsPosition c = true)
    (hs : s.specials.get c ≠ some SpecialType.shield) :
    validateAndExecuteFortify s pid c ≠ none := by
  unfold validateAndExecuteFortify
  rw [hv, ho]
  simp only [Bool.true_eq_false, if_false]
  rw [if_neg hs]
  simp

/-- The attack preconditions guarantee a processed action, whatever the
dice say. -/
lemma attack_isSome (s : GameState) (pid : PlayerId) (c : Coordinate) (ab db : Nat)
    (hv : s.grid.isValidCoordinate c = true)
    (ho : (s.getPlayer (opponentId pid)).ownsPosition c = true)
    (ha : isAdjacent c (s.getPlayer pid) = true) :
    validateAndExecuteAttack s pid c ab db ≠ none := by
  unfold validateAndExecuteAttack
  rw [hv, ho, ha]
  simp only [Bool.true_eq_false, if_false]
  split <;> simp

/-- C2: the negotiator returns at most one action; whenever it returns an
action, that action passes the move executor's precondition checks for
the acting side, whatever the dice; and it returns `none` only when the
rules engine's legal-move enumeration for the acting side is empty — in
particular, when every response is missing, malformed or illegal, it
falls back within the retry budget to a member of the enumeration. -/
theorem decideMove_legal (s : GameState) (pid : PlayerId)
    (responses : List (Option String)) (rMove rWell : Nat)
    (hGrid : s.grid.size = GameConstants.GRID_SIZE)
    (hOwned : ∀ c ∈ (s.getPlayer pid).positions, s.grid.isValidCoordinate c = true) :
    (∀ m, decideMove (s.getPlayer pid) (s.getPlayer (opponentId pid)) s.grid s.specials
        responses rMove rWell = some m →
      ∀ ab db, processPlayerAction s pid m.action m.coord ab db ≠ none) ∧
    (decideMove (s.getPlayer pid) (s.getPlayer (opponentId pid)) s.grid s.specials
        responses rMove rWell = none →
      getValidMoves (s.getPlayer pid) (s.getPlayer (opponentId pid)) s.grid s.specials = []) := by
  have hvalid_of_bounds : ∀ c : Coordinate,
      (0 ≤ c.row ∧ c.row < (GameConstants.GRID_SIZE : Int) ∧
       0 ≤ c.col ∧ c.col < (GameConstants.GRID_SIZE : Int)) →
      s.grid.isValidCoordinate c = true := by
    intro c hb
    unfold Grid.isValidCoordinate
    rw [hGrid]
    simp only [Bool.and_eq_true, decide_eq_true_eq]
    exact ⟨⟨⟨hb.1, hb.2.1⟩, hb.2.2.1⟩, hb.2.2.2⟩
  have hparsed : ∀ p, runAttempts (s.getPlayer pid) (s.getPlayer (opponentId pid)) s.grid
      s.specials responses (GameConstants.AI_MAX_RETRIES + 1) = some p →
      ∀ ab db, processPlayerAction s pid p.action p.coord ab db ≠ none := by
    intro p hp ab db
    obtain ⟨p0, hval, txt, hparse⟩ := runAttempts_eq_some _ _ _ _ _ _ _ hp
    obtain ⟨hact, hcoord, hfacts⟩ := validateParsed_eq_some _ _ _ _ _ _ hval
    have hv : s.grid.isValidCoordinate p.coord = true := by
      rw [hcoord]
      exact hvalid_of_bounds p0.coord (parseAIResponse_coord_bounds hparse)
    rcases ha0 : p0.action with _ | _ | _ <;> simp only [ha0] at hfacts hact <;> rw [hact]
    · rw [show processPlayerAction s pid AIActionType.CONQUER p.coord ab db
          = validateAndExecuteConquer s pid p.coord from rfl]
      have h1 : s.grid.getCell p.coord = CellState.empty := by rw [hcoord]; exact hfacts.1
      have h2 : isAdjacent p.coord (s.getPlayer pid) = true := by rw [hcoord]; exact hfacts.2
      exact conquer_isSome s pid p.coord hv h1 h2
    · rw [show processPlayerAction s pid AIActionType.FORTIFY p.coord ab db
          = validateAndExecuteFortify s pid p.coord from rfl]
      have h1 : (s.getPlayer pid).ownsPosition p.coord = true := by rw [hcoord]; exact hfacts.1
      have h2 : s.specials.get p.coord ≠ some SpecialType.shield := by
        rw [hcoord]; exact hfacts.2
      exact fortify_isSome s pid p.coord hv h1 h2
    · rw [show processPlayerAction s pid AIActionType.ATTACK p.coord ab db
          = validateAndExecuteAttack s pid p.coord ab db from rfl]
      have h1 : (s.getPlayer (opponentId pid)).ownsPosition p.coord = true := by
        rw [hcoord]; exact hfacts.1
      have h2 : isAdjacent p.coord (s.getPlayer pid) = true := by rw [hcoord]; exact hfacts.2
      exact attack_isSome s pid p.coord ab db hv h1 h2
  have hfallback : ∀ m, m ∈ getValidMoves (s.getPlayer pid) (s.getPlayer (opponentId pid))
      s.grid s.specials → ∀ ab db, processPlayerAction s pid m.action m.coord ab db ≠ none := by
    intro m hm ab db
    rcases mem_getValidMoves_facts _ _ _ _ m hm with
      ⟨hact, hcoord, hs⟩ | ⟨hact, hv, hadj, hempty⟩ | ⟨hact, hv, hadj, hown⟩
    · rw [hact, show processPlayerAction s pid AIActionType.FORTIFY m.coord ab db
          = validateAndExecuteFortify s pid m.coord from rfl]
      refine fortify_isSome s pid m.coord (hOwned m.coord hcoord) ?_ hs
      unfold Player.ownsPosition
      simpa using hcoord
    · rw [hact, show processPlayerAction s pid AIActionType.CONQUER m.coord ab db
          = validateAndExecuteConquer s pid m.coord from rfl]
      exact conquer_isSome s pid m.coord hv hempty hadj
    · rw [hact, show processPlayerAction s pid AIActionType.ATTACK m.coord ab db
          = validateAndExecuteAttack s pid m.coord ab db from rfl]
      exact attack_isSome s pid m.coord ab db hv hown hadj
  constructor
  · intro m hm ab db
    simp only [decideMove] at hm
    rcases hrun : runAttempts (s.getPlayer pid) (s.getPlayer (opponentId pid)) s.grid
        s.specials responses (GameConstants.AI_MAX_RETRIES + 1) with _ | p <;>
      simp only [hrun] at hm
    · rcases hge : getRandomElement (getValidMoves (s.getPlayer pid)
          (s.getPlayer (opponentId pid)) s.grid s.specials) rMove with _ | m0 <;>
        simp only [hge] at hm
      · cases hm
      · have hm0 := hfallback m0 (getRandomElement_mem hge)
        split_ifs at hm with hw <;> simp only [Option.some.injEq] at hm <;> subst hm
        · exact hm0 ab db
        · exact hm0 ab db
    · have hp := hparsed p hrun
      split_ifs at hm with hw <;> simp only [Option.some.injEq] at hm <;> subst hm
      · exact hp ab db
      · exact hp ab db
  · intro hnone
    simp only [decideMove] at hnone
    rcases hrun : runAttempts (s.getPlayer pid) (s.getPlayer (opponentId pid)) s.grid
        s.specials responses (GameConstants.AI_MAX_RETRIES + 1) with _ | p <;>
      simp only [hrun] at hnone
    · rcases hge : getRandomElement (getValidMoves (s.getPlayer pid)
          (s.getPlayer (opponentId pid)) s.grid s.specials) rMove with _ | m0 <;>
        simp only [hge] at hnone
      · exact getRandomElement_eq_none hge
      · split_ifs at hnone
    · split_ifs at hnone

/-- Concrete state for the C2 witness: X at (0,0), O at (4,4). -/
def c2State : GameState :=
  ⟨⟨5, [[CellState.mark 0, CellState.empty, CellState.empty, CellState.empty, CellState.empty],
        [CellState.empty, CellState.empty, CellState.empty, CellState.empty, CellState.empty],
        [CellState.empty, CellState.empty, CellState.empty, CellState.empty, CellState.empty],
        [CellState.empty, CellState.empty, CellState.empty, CellState.empty, CellState.empty],
        [CellState.empty, CellState.empty, CellState.empty, CellState.empty, CellState.mark 1]]⟩,
   ⟨0, [⟨0, 0⟩], [], []⟩, ⟨1, [⟨4, 4⟩], [], []⟩, 0, ⟨[]⟩, none, none⟩

/-- C2 witness: the reply `CONQUER: A2` parses to Conquer((0,1)), and the
negotiated move passes the executor's precondition checks. -/
theorem decideMove_legal_witness :
    processPlayerAction c2State 0 AIActionType.CONQUER ⟨0, 1⟩ 3 3 ≠ none :=
  (decideMove_legal c2State 0 [some "CONQUER: A2"] 0 0 (by decide) (by decide)).1
    ⟨AIActionType.CONQUER, ⟨0, 1⟩, none⟩ (by decide) 3 3

/-- Side used by the C8 witness: owns only (0,0). -/
def c8P : Player := ⟨0, [⟨0, 0⟩], [], []⟩

/-- C8 witness: (0,1) is adjacent to a side owning exactly (0,0), by the
characterization applied at Manhattan distance 1. -/
theorem isAdjacent_characterization_witness :
    isAdjacent ⟨0, 1⟩ c8P = true :=
  (isAdjacent_characterization ⟨0, 1⟩ c8P).1.mpr ⟨⟨0, 0⟩, by decide, by decide⟩
